import Mathlib

/-!
# Conway's Game of Life (`life.c`): embedding and verified properties

The C program keeps two globals, the grid `cell[SIZE][SIZE]` of `struct unit`
and the counter `ticks`.  They are embedded as the record `World`, every C
function that writes a global becomes a function `World → World`, and every
loop `for (int i = 0; i < SIZE; i++)` becomes a left fold over the indices
`0, 1, ..., SIZE - 1` in that order.

The embedding has two layers.  The first one is pure: loop counters are
mathematical integers and the array is read under the guard of the source, so
its functions are total by construction.  The second one, the machine model,
runs the same loops step by step, with an iteration budget and array accesses
that fail outside `cell`; `count_neighbors_exec_ok`, `flag_life_exec_ok` and
`cycle_world_exec_ok` show that it computes the functions of the first layer.
Loop counters are exact integers in both layers: C defines no wrap-around for
a signed `int`, and every loop of the program ends a few steps after its
start.  The counter `ticks`, which grows for as long as the program runs, is
kept in the range of an `int` by `wrapInt`.
-/

namespace Life

/-! ## Data model -/

/-- The macro `SIZE` of the source: the side of the square grid. -/
abbrev SIZE : Nat := 15

/-- Width in bits of the C type `int` that is assumed for machine arithmetic. -/
abbrev INT_BITS : Nat := 32

/-- Largest value of a C `int`. -/
abbrev INT_MAX : Int := 2 ^ (INT_BITS - 1) - 1

/-- Smallest value of a C `int`. -/
abbrev INT_MIN : Int := -(2 ^ (INT_BITS - 1))

/-- Two's complement reduction of a mathematical integer to a C `int`. -/
def wrapInt (x : Int) : Int :=
  (x + 2 ^ (INT_BITS - 1)) % 2 ^ INT_BITS - 2 ^ (INT_BITS - 1)

/-- The C `struct unit`: one cell of the grid. -/
structure unit where
  alive : Bool
  marked_for_death : Bool
deriving DecidableEq, Repr

/-- The global state of the program: the array `cell` and the counter `ticks`. -/
structure World where
  cell : Fin SIZE → Fin SIZE → unit
  ticks : Int

/-- The assignment `cell[i][j].marked_for_death = b`. -/
def set_marked (w : World) (i j : Fin SIZE) (b : Bool) : World :=
  { w with cell := fun r c =>
      if r = i ∧ c = j then { w.cell r c with marked_for_death := b } else w.cell r c }

/-- The assignment `cell[i][j].alive = b`. -/
def set_alive (w : World) (i j : Fin SIZE) (b : Bool) : World :=
  { w with cell := fun r c =>
      if r = i ∧ c = j then { w.cell r c with alive := b } else w.cell r c }

/-- The assignment `cell[i][j] = u`. -/
def set_cell (w : World) (i j : Fin SIZE) (u : unit) : World :=
  { w with cell := fun r c => if r = i ∧ c = j then u else w.cell r c }

/-! ## `count_neighbors` -/

/-- The condition of the `if` inside `count_neighbors`.  The C operator `&&`
short-circuits, so `cell[row][col]` is read only when the four range tests
have succeeded; the dependent `if` carries exactly those tests to the read. -/
def neighbor_test (w : World) (i j row col : Int) : Bool :=
  if h : row ≥ 0 ∧ row < SIZE ∧ col ≥ 0 ∧ col < SIZE then
    !(row == i && col == j) &&
      (w.cell ⟨row.toNat, by omega⟩ ⟨col.toNat, by omega⟩).alive
  else false

/-- The function `count_neighbors(i, j)`: the two nested loops visit
`row = i-1, i, i+1` and `col = j-1, j, j+1` in this order.  The counters are
exact integers here; `count_neighbors_exec` is the same function on `int`. -/
def count_neighbors (w : World) (i j : Int) : Int :=
  [i - 1, i, i + 1].foldl (fun neighbors row =>
    [j - 1, j, j + 1].foldl (fun neighbors col =>
      if neighbor_test w i j row col then neighbors + 1 else neighbors) neighbors) 0

/-! ## `flag_life` and `cycle_world` -/

/-- The body of the inner loop of `flag_life` at the cell `(i, j)`. -/
def flag_cell (w : World) (i j : Fin SIZE) : World :=
  let neighbors := count_neighbors w i j
  set_marked w i j (!(neighbors == 3 || ((w.cell i j).alive && neighbors == 2)))

/-- The function `flag_life`: row-major sweep of `flag_cell`. -/
def flag_life (w : World) : World :=
  (List.finRange SIZE).foldl (fun w i =>
    (List.finRange SIZE).foldl (fun w j => flag_cell w i j) w) w

/-- The body of the inner loop of `cycle_world` at the cell `(i, j)`. -/
def commit_cell (w : World) (i j : Fin SIZE) : World :=
  set_alive w i j (!(w.cell i j).marked_for_death)

/-- The function `cycle_world`: row-major sweep of `commit_cell`, then `ticks++`. -/
def cycle_world (w : World) : World :=
  let w1 := (List.finRange SIZE).foldl (fun w i =>
    (List.finRange SIZE).foldl (fun w j => commit_cell w i j) w) w
  { w1 with ticks := wrapInt (w1.ticks + 1) }

/-- One generation as the main loop runs it: `flag_life(); cycle_world();`. -/
def generation (w : World) : World := cycle_world (flag_life w)

/-- The cell positions in the row-major order of the nested loops. -/
def positions : List (Fin SIZE × Fin SIZE) :=
  (List.finRange SIZE).flatMap (fun i => (List.finRange SIZE).map (fun j => (i, j)))

/-- The per-cell flagging step of `flag_life` run over an arbitrary list of positions. -/
def flag_cells (ps : List (Fin SIZE × Fin SIZE)) (w : World) : World :=
  ps.foldl (fun w p => flag_cell w p.1 p.2) w

/-- The per-cell commit step of `cycle_world` run over an arbitrary list of positions. -/
def commit_cells (ps : List (Fin SIZE × Fin SIZE)) (w : World) : World :=
  ps.foldl (fun w p => commit_cell w p.1 p.2) w

/-- The value that `flag_life` stores in `cell[i][j].marked_for_death`. -/
def death_flag (w : World) (i j : Fin SIZE) : Bool :=
  !(count_neighbors w i j == 3 || ((w.cell i j).alive && count_neighbors w i j == 2))

/-! ## Start-up: `init_cells`, `randomize` and the seed functions -/

/-- The state of the globals when `main` starts: C zero-initialises objects of
static storage duration, and `ticks` has the initialiser `0`. -/
def boot : World := ⟨fun _ _ => ⟨false, false⟩, 0⟩

/-- The function `init_cells`: every cell becomes `(struct unit){ false, false }`. -/
def init_cells (w : World) : World :=
  (List.finRange SIZE).foldl (fun w i =>
    (List.finRange SIZE).foldl (fun w j => set_cell w i j ⟨false, false⟩) w) w

/-- Conversion of a C `int` to `bool`: every non-zero value becomes `true`. -/
def int_to_bool (x : Int) : Bool := x != 0

/-- Promotion of a C `bool` to `int`. -/
def bool_to_int (b : Bool) : Int := if b then 1 else 0

/-- The function `randomize`, relative to the sequence `rand_values` of the
results of the successive calls of `rand()` after `srand(time(NULL))`: the
call number `k` (counted from the argument `k0`) returns `rand_values k`, a
value in `[0, RAND_MAX]`.  The state of the sweep is the grid together with
the number of calls made so far. -/
def randomize_from (rand_values : Nat → Nat) (k0 : Nat) (w : World) : World × Nat :=
  (List.finRange SIZE).foldl (fun s i =>
    (List.finRange SIZE).foldl (fun s j =>
      (set_alive s.1 i j (int_to_bool ((rand_values s.2 : Int) % 2)), s.2 + 1)) s) (w, k0)

/-- The function `randomize`: the sweep above, started at the first call of `rand()`. -/
def randomize (rand_values : Nat → Nat) (w : World) : World :=
  (randomize_from rand_values 0 w).1

/-- The statement `cell[i][j].alive++;` of the seed functions.  On a C `bool`
the increment stores the value `alive + 1`, computed in `int`, converted back to `bool`.
The indices are the literals of the source, so they are natural numbers here
and address the cell whose row and column they equal. -/
def incr_alive (w : World) (i j : Nat) : World :=
  { w with cell := fun r c =>
      if r.val = i ∧ c.val = j then
        { w.cell r c with alive := int_to_bool (bool_to_int (w.cell r c).alive + 1) }
      else w.cell r c }

/-- The function `seedBlinkerOscillator`. -/
def seedBlinkerOscillator (w : World) : World :=
  let w := incr_alive w 5 5
  let w := incr_alive w 6 5
  let w := incr_alive w 7 5
  let w := incr_alive w 8 5
  let w := incr_alive w 9 5
  let w := incr_alive w 5 7
  let w := incr_alive w 9 7
  let w := incr_alive w 5 9
  let w := incr_alive w 6 9
  let w := incr_alive w 7 9
  let w := incr_alive w 8 9
  incr_alive w 9 9

/-- The function `seedSpaceshipGlider`. -/
def seedSpaceshipGlider (w : World) : World :=
  let w := incr_alive w 0 2
  let w := incr_alive w 1 0
  let w := incr_alive w 1 2
  let w := incr_alive w 2 1
  incr_alive w 2 2

/-- The function `seedLWSS`. -/
def seedLWSS (w : World) : World :=
  let w := incr_alive w 1 11
  let w := incr_alive w 2 10
  let w := incr_alive w 3 10
  let w := incr_alive w 4 10
  let w := incr_alive w 4 11
  let w := incr_alive w 4 12
  let w := incr_alive w 4 13
  let w := incr_alive w 1 14
  incr_alive w 3 14

/-- The Glider coordinate table of the specification. -/
def glider_table : List (Nat × Nat) := [(0, 2), (1, 0), (1, 2), (2, 1), (2, 2)]

/-- The Blinker/Oscillator coordinate table of the specification. -/
def blinker_table : List (Nat × Nat) :=
  [(5, 5), (6, 5), (7, 5), (8, 5), (9, 5), (5, 7), (9, 7), (5, 9), (6, 9), (7, 9), (8, 9), (9, 9)]

/-- The LWSS coordinate table of the specification. -/
def lwss_table : List (Nat × Nat) :=
  [(1, 11), (2, 10), (3, 10), (4, 10), (4, 11), (4, 12), (4, 13), (1, 14), (3, 14)]

/-- The grid whose alive cells are exactly the listed positions, with every
flag cleared and `ticks = 0`. -/
def grid_of (l : List (Nat × Nat)) : World :=
  ⟨fun r c => ⟨decide ((r.val, c.val) ∈ l), false⟩, 0⟩

/-- The grid in which every cell is alive. -/
def all_alive : World := ⟨fun _ _ => ⟨true, false⟩, 0⟩

/-- The number of generations `n` of the main loop: `flag_life(); cycle_world();` repeated. -/
def generations : Nat → World → World
  | 0, w => w
  | n + 1, w => generations n (generation w)

/-! ## Notions of the specification -/

/-- The number of alive cells in the Moore neighbourhood of `(i, j)` clipped to
the grid, following the words of the specification: the positions `(r, c)` of
the grid with `|r - i| ≤ 1`, `|c - j| ≤ 1`, `(r, c) ≠ (i, j)` and `cell (r, c)` alive. -/
def moore_count (w : World) (i j : Int) : Nat :=
  ((Finset.univ : Finset (Fin SIZE × Fin SIZE)).filter (fun p =>
    |(p.1.val : Int) - i| ≤ 1 ∧ |(p.2.val : Int) - j| ≤ 1 ∧
      ¬ ((p.1.val : Int) = i ∧ (p.2.val : Int) = j) ∧ (w.cell p.1 p.2).alive = true)).card

/-- The contribution of one tested position to the neighbour count. -/
def indicator (b : Bool) : Int := if b then 1 else 0

/-- Extension by zero of a function on the grid indices to all integers. -/
def clipped (g : Fin SIZE → Int) (x : Int) : Int :=
  if h : x ≥ 0 ∧ x < SIZE then g ⟨x.toNat, by omega⟩ else 0

/-- A seed function is additive for a coordinate table: on every grid state the
cells alive afterwards are those alive before together with the cells of the
table, and `marked_for_death` and `ticks` are untouched. -/
def additive (seed : World → World) (table : List (Nat × Nat)) : Prop :=
  ∀ g : World,
    (∀ r c : Fin SIZE, ((seed g).cell r c).alive = true ↔
      ((g.cell r c).alive = true ∨ (r.val, c.val) ∈ table)) ∧
    (∀ r c : Fin SIZE, ((seed g).cell r c).marked_for_death = (g.cell r c).marked_for_death) ∧
    (seed g).ticks = g.ticks

/-- Two seed functions applied one after the other, in either order, seed the
union of their tables on top of the cells already alive. -/
def seeds_union (seed1 seed2 : World → World) (table1 table2 : List (Nat × Nat)) : Prop :=
  ∀ g : World,
    seed2 (seed1 g) = seed1 (seed2 g) ∧
    ∀ r c : Fin SIZE, ((seed2 (seed1 g)).cell r c).alive = true ↔
      ((g.cell r c).alive = true ∨ (r.val, c.val) ∈ table1 ∨ (r.val, c.val) ∈ table2)

/-- Membership of the integer position `(row, col)` in the 2x2 block whose top
left cell is `(r, c)`. -/
def in_block (r c : Nat) (row col : Int) : Bool :=
  decide ((row = r ∨ row = r + 1) ∧ (col = c ∨ col = c + 1))

/-! ## Machine model: bounded loops, checked array accesses -/

/-- The characters that `print_world` writes to the standard output: for each
row the two characters `"%c "` of every cell and a newline, then the line
`"\nTicks = %d\n\n"`. -/
def print_world_chars (w : World) : List Char :=
  (List.finRange SIZE).foldl (fun out i =>
    (List.finRange SIZE).foldl (fun out j =>
      out ++ [if (w.cell i j).alive then '0' else '.', ' ']) out ++ ['\n']) []
    ++ "\nTicks = ".toList ++ (toString w.ticks).toList ++ "\n\n".toList

/-- The function `print_world`: it reads the globals and writes the frame. -/
def print_world (w : World) : String := String.mk (print_world_chars w)

/-- The body of the loop `while(1)` of `main`, run `n` times on the globals and
the text written so far: `print_world(); flag_life(); cycle_world();` (the
calls `usleep` and `fflush` touch neither). -/
def main_loop : Nat → World × String → World × String
  | 0, s => s
  | n + 1, s => main_loop n (cycle_world (flag_life s.1), s.2 ++ print_world s.1)

/-! ## Symmetries, alive count -/

/-- The transpose of a grid state: the cell `(r, c)` holds what `(c, r)` held. -/
def transpose (w : World) : World := ⟨fun r c => w.cell c r, w.ticks⟩

/-- The index `14 - i` of the reflected row or column. -/
def mirror (i : Fin SIZE) : Fin SIZE :=
  ⟨14 - i.val, Nat.lt_of_le_of_lt (Nat.sub_le 14 i.val) (by decide)⟩

/-- The row reflection `(i, j) -> (14 - i, j)` of a grid state. -/
def flip_rows (w : World) : World := ⟨fun r c => w.cell (mirror r) c, w.ticks⟩

/-- The column reflection `(i, j) -> (i, 14 - j)` of a grid state. -/
def flip_cols (w : World) : World := ⟨fun r c => w.cell r (mirror c), w.ticks⟩

/-- The number of alive cells of a grid state. -/
def alive_count (w : World) : Nat :=
  ((Finset.univ : Finset (Fin SIZE × Fin SIZE)).filter (fun p =>
    (w.cell p.1 p.2).alive = true)).card

/-! ## A compact executable form of one generation -/

/-- The bit `c` of the row `r` of a grid given as one natural number per row. -/
def bit_at (rows : List Nat) (r c : Nat) : Bool := (rows.getD r 0).testBit c

/-- A grid state is represented by a list of rows when the `alive` field of
every cell `(r, c)` is the bit `c` of the row `r`. -/
def represents (w : World) (rows : List Nat) : Prop :=
  ∀ r c : Fin SIZE, (w.cell r c).alive = bit_at rows r.val c.val

/-- The cell at the position `(r - 1, c - 1)` of the grid, as 0 or 1; the
positions with `r = 0`, `c = 0`, `r > SIZE` or `c > SIZE` lie outside the grid
and count 0. -/
def look (rows : List Nat) (r c : Nat) : Nat :=
  if r = 0 ∨ c = 0 ∨ SIZE < r ∨ SIZE < c then 0
  else if bit_at rows (r - 1) (c - 1) then 1 else 0

/-- The number of alive neighbours of the cell `(r, c)` in a grid given by rows. -/
def rows_count (rows : List Nat) (r c : Nat) : Nat :=
  look rows r c + look rows r (c + 1) + look rows r (c + 2)
    + look rows (r + 1) c + look rows (r + 1) (c + 2)
    + look rows (r + 2) c + look rows (r + 2) (c + 1) + look rows (r + 2) (c + 2)

/-- The rule of `flag_life` on a grid given by rows. -/
def rows_alive (rows : List Nat) (r c : Nat) : Bool :=
  rows_count rows r c == 3 || (bit_at rows r c && rows_count rows r c == 2)

/-- The number whose bits, lowest first, are the given list. -/
def bits_to_nat : List Bool → Nat
  | [] => 0
  | b :: bs => (if b then 1 else 0) + 2 * bits_to_nat bs

/-- One generation on a grid given by rows. -/
def rows_step (rows : List Nat) : List Nat :=
  (List.range SIZE).map (fun r =>
    bits_to_nat ((List.range SIZE).map (fun c => rows_alive rows r c)))

/-- Every entry of the list is the generation that follows the entry before it. -/
def orbit_check : List (List Nat) → Bool
  | a :: b :: rest => decide (rows_step a = b) && orbit_check (b :: rest)
  | _ => true

/-- The rows of the LWSS preset and of the four generations that follow it. -/
def lwss_orbit : List (List Nat) :=
  [[0, 18432, 1024, 17408, 15360, 0, 0, 0, 0, 0, 0, 0, 0, 0, 0],
   [0, 0, 3072, 13824, 15360, 6144, 0, 0, 0, 0, 0, 0, 0, 0, 0],
   [0, 0, 7680, 8704, 512, 9216, 0, 0, 0, 0, 0, 0, 0, 0, 0],
   [0, 3072, 7680, 6912, 1536, 0, 0, 0, 0, 0, 0, 0, 0, 0, 0],
   [0, 4608, 256, 4352, 3840, 0, 0, 0, 0, 0, 0, 0, 0, 0, 0]]

/-- The rows of the Blinker/Oscillator preset and of the 29 generations that
follow it. -/
def blinker_orbit : List (List Nat) :=
  [[0, 0, 0, 0, 0, 672, 544, 544, 544, 672, 0, 0, 0, 0, 0],
   [0, 0, 0, 0, 0, 320, 1584, 1904, 1584, 320, 0, 0, 0, 0, 0],
   [0, 0, 0, 0, 0, 544, 1040, 2376, 1040, 544, 0, 0, 0, 0, 0],
   [0, 0, 0, 0, 0, 0, 1584, 3640, 1584, 0, 0, 0, 0, 0, 0],
   [0, 0, 0, 0, 0, 0, 2600, 2376, 2600, 0, 0, 0, 0, 0, 0],
   [0, 0, 0, 0, 0, 0, 1040, 7020, 1040, 0, 0, 0, 0, 0, 0],
   [0, 0, 0, 0, 0, 0, 3640, 2600, 3640, 0, 0, 0, 0, 0, 0],
   [0, 0, 0, 0, 0, 1040, 2600, 4420, 2600, 1040, 0, 0, 0, 0, 0],
   [0, 0, 0, 0, 0, 1040, 3640, 7020, 3640, 1040, 0, 0, 0, 0, 0],
   [0, 0, 0, 0, 0, 3640, 4420, 4420, 4420, 3640, 0, 0, 0, 0, 0],
   [0, 0, 0, 0, 1040, 3640, 5460, 15214, 5460, 3640, 1040, 0, 0, 0, 0],
   [0, 0, 0, 0, 3640, 0, 8514, 8514, 8514, 0, 3640, 0, 0, 0, 0],
   [0, 0, 0, 1040, 1040, 1584, 0, 29543, 0, 1584, 1040, 1040, 0, 0, 0],
   [0, 0, 0, 0, 3096, 1584, 9554, 8194, 9554, 1584, 3096, 0, 0, 0, 0],
   [0, 0, 0, 0, 3640, 0, 1040, 28679, 1040, 0, 3640, 0, 0, 0, 0],
   [0, 0, 0, 1040, 1040, 2600, 8194, 10250, 8194, 2600, 1040, 1040, 0, 0, 0],
   [0, 0, 0, 0, 3640, 1040, 1040, 24579, 1040, 1040, 3640, 0, 0, 0, 0],
   [0, 0, 0, 1040, 3640, 0, 0, 0, 0, 0, 3640, 1040, 0, 0, 0],
   [0, 0, 0, 3640, 3640, 1040, 0, 0, 0, 1040, 3640, 3640, 0, 0, 0],
   [0, 0, 1040, 2600, 0, 3640, 0, 0, 0, 3640, 0, 2600, 1040, 0, 0],
   [0, 0, 1040, 1040, 2600, 1040, 1040, 0, 1040, 1040, 2600, 1040, 1040, 0, 0],
   [0, 0, 0, 3640, 2600, 3640, 0, 0, 0, 3640, 2600, 3640, 0, 0, 0],
   [0, 0, 1040, 2600, 4420, 2600, 1040, 0, 1040, 2600, 4420, 2600, 1040, 0, 0],
   [0, 0, 1040, 3640, 7020, 3640, 1040, 0, 1040, 3640, 7020, 3640, 1040, 0, 0],
   [0, 0, 3640, 4420, 4420, 4420, 3640, 0, 3640, 4420, 4420, 4420, 3640, 0, 0],
   [0, 1040, 3640, 5460, 15214, 5460, 3640, 0, 3640, 5460, 15214, 5460, 3640, 1040, 0],
   [0, 3640, 0, 8514, 8514, 8514, 3640, 0, 3640, 8514, 8514, 8514, 0, 3640, 0],
   [1040, 1040, 1584, 0, 29543, 5460, 1584, 0, 1584, 5460, 29543, 0, 1584, 1040, 1040],
   [0, 3096, 1584, 9554, 15214, 5460, 3640, 0, 3640, 5460, 15214, 9554, 1584, 3096, 0],
   [0, 3640, 0, 8514, 8514, 8514, 3640, 0, 3640, 8514, 8514, 8514, 0, 3640, 0]]

/-- Two grid states have the same alive cells. -/
def same_alive (w w2 : World) : Prop :=
  ∀ r c : Fin SIZE, (w.cell r c).alive = (w2.cell r c).alive

/-! ## Seeded `randomize` and the lines of a frame -/

/-- The function `randomize` as the program runs it: `srand(seed)`, with the
value `seed` of `time(NULL)`, selects the sequence `prng seed` of the results
of `rand()`; the generator `prng` of the C library is a parameter. -/
def randomize_seeded (prng : Nat → Nat → Nat) (seed : Nat) (w : World) : World :=
  randomize (prng seed) w

/-- The character that `print_world` writes for the cell `(i, j)`. -/
def glyph (w : World) (i j : Fin SIZE) : Char := if (w.cell i j).alive then '0' else '.'

/-- The text of the row `i` of a frame: for every cell its glyph and a space. -/
def row_line (w : World) (i : Fin SIZE) : List Char :=
  (List.finRange SIZE).flatMap (fun j => [glyph w i j, ' '])

/-- The line of a frame that shows the tick count, `%d` being the decimal
notation of the `int`. -/
def ticks_line (w : World) : List Char := "Ticks = ".toList ++ (toString w.ticks).toList

/-- The lines of a frame: the 15 rows, an empty line, the tick count and the
empty line that the final `"\n\n"` leaves. -/
def frame_lines (w : World) : List (List Char) :=
  (List.finRange SIZE).map (row_line w) ++ [[], ticks_line w, []]

/-- The text made of the given lines, each one ended by a newline. -/
def unlines (ls : List (List Char)) : List Char := ls.flatMap (fun l => l ++ ['\n'])

/-! ## `atoi` and the start of `main` -/

/-- The characters that `isspace` accepts in the C locale: space, `\t`, `\n`,
`\v`, `\f` and `\r`. -/
def is_space (c : Char) : Bool :=
  c.toNat == 32 || (9 ≤ c.toNat && c.toNat ≤ 13)

/-- The value of the longest run of decimal digits at the head of the text,
read from left to right on top of the value `acc` of the digits read so far. -/
def digits_value : List Char → Int → Int
  | [], acc => acc
  | c :: cs, acc => if c.isDigit then digits_value cs (10 * acc + ((c.toNat : Int) - 48)) else acc

/-- The integer that `strtol(s, NULL, 10)` reads: white space is skipped, an
optional sign is taken, then the digits that follow; without a digit the value is 0. -/
def atoi_value (s : List Char) : Int :=
  match s.dropWhile is_space with
  | [] => 0
  | c :: t =>
    if c = '-' then - digits_value t 0
    else if c = '+' then digits_value t 0
    else digits_value (c :: t) 0

/-- The library function `atoi` of `<stdlib.h>`, which is not part of the
repository, modelled from the C standard: the value read by `strtol` in
base 10.  The standard leaves the result undefined when the value is outside
the range of `int`; what the library returns then is the parameter
`out_of_range`. -/
def atoi (out_of_range : Int → Int) (s : List Char) : Int :=
  if INT_MIN ≤ atoi_value s ∧ atoi_value s ≤ INT_MAX then atoi_value s
  else out_of_range (atoi_value s)

/-- The part of `main` before the loop: `init_cells()`, then the `switch` on
`atoi(argv[1])` when `argc == 2`, and `randomize()` otherwise.  The list `argv`
holds the `argc` strings `argv[0], ..., argv[argc - 1]`. -/
def main_start (out_of_range : Int → Int) (prng : Nat → Nat → Nat) (seed : Nat)
    (argv : List (List Char)) : World :=
  let w := init_cells boot
  if argv.length = 2 then
    let n := atoi out_of_range (argv.getD 1 [])
    if n = 1 then seedSpaceshipGlider w
    else if n = 2 then seedBlinkerOscillator w
    else if n = 3 then seedLWSS w
    else if n = 4 then seedBlinkerOscillator (seedSpaceshipGlider w)
    else if n = 5 then seedBlinkerOscillator (seedLWSS w)
    else if n = 6 then seedLWSS (seedSpaceshipGlider w)
    else randomize_seeded prng seed w
  else randomize_seeded prng seed w

/-- The decimal value of a text made of digits. -/
def decimal (ds : List Char) : Int :=
  ds.foldl (fun acc c => 10 * acc + ((c.toNat : Int) - 48)) 0

/-- The text is a decimal integer, an optional sign followed by one or more
digits and nothing else; the result is its value. -/
def integer_literal (s : List Char) : Option Int :=
  match s with
  | [] => none
  | c :: t =>
    if c = '-' then (if t ≠ [] ∧ t.all Char.isDigit then some (- decimal t) else none)
    else if c = '+' then (if t ≠ [] ∧ t.all Char.isDigit then some (decimal t) else none)
    else if (c :: t).all Char.isDigit then some (decimal (c :: t)) else none

/-- The text starts, after optional white space and an optional sign, with a
decimal digit. -/
def starts_with_number (s : List Char) : Bool :=
  match s.dropWhile is_space with
  | [] => false
  | c :: t =>
    if c = '-' ∨ c = '+' then (match t with | [] => false | d :: _ => d.isDigit)
    else c.isDigit

/-! ## Helper lemmas -/

theorem nested_foldl {α β γ : Type} (f : γ → α → β → γ) (rows : List α) (cols : List β)
    (w : γ) :
    rows.foldl (fun w i => cols.foldl (fun w j => f w i j) w) w
      = (rows.flatMap (fun i => cols.map (fun j => (i, j)))).foldl (fun w p => f w p.1 p.2) w := by
  induction rows generalizing w with
  | nil => rfl
  | cons i rows ih =>
    simp only [List.foldl_cons, List.flatMap_cons, List.foldl_append, List.foldl_map]
    exact ih _

theorem nested_sweep (f : World → Fin SIZE → Fin SIZE → World) (w : World) :
    (List.finRange SIZE).foldl (fun w i =>
      (List.finRange SIZE).foldl (fun w j => f w i j) w) w
      = positions.foldl (fun w p => f w p.1 p.2) w :=
  nested_foldl f _ _ w

theorem flag_life_eq (w : World) : flag_life w = flag_cells positions w :=
  nested_sweep (fun w i j => flag_cell w i j) w

theorem mem_positions (p : Fin SIZE × Fin SIZE) : p ∈ positions := by
  unfold positions
  simp only [List.mem_flatMap, List.mem_map, List.mem_finRange, true_and]
  exact ⟨p.1, p.2, rfl⟩

theorem neighbor_test_congr (w w2 : World)
    (h : ∀ r c, (w.cell r c).alive = (w2.cell r c).alive) (i j row col : Int) :
    neighbor_test w i j row col = neighbor_test w2 i j row col := by
  unfold neighbor_test
  split
  · rw [h]
  · rfl

theorem count_neighbors_congr (w w2 : World)
    (h : ∀ r c, (w.cell r c).alive = (w2.cell r c).alive) (i j : Int) :
    count_neighbors w i j = count_neighbors w2 i j := by
  unfold count_neighbors
  simp only [neighbor_test_congr w w2 h]

theorem death_flag_congr (w w2 : World)
    (h : ∀ r c, (w.cell r c).alive = (w2.cell r c).alive) (i j : Fin SIZE) :
    death_flag w i j = death_flag w2 i j := by
  unfold death_flag
  rw [count_neighbors_congr w w2 h, h]

theorem flag_cell_alive (w : World) (i j r c : Fin SIZE) :
    ((flag_cell w i j).cell r c).alive = (w.cell r c).alive := by
  simp only [flag_cell, set_marked]
  split <;> rfl

theorem flag_cells_cell (ps : List (Fin SIZE × Fin SIZE)) (w : World) (r c : Fin SIZE) :
    (flag_cells ps w).cell r c
      = if (r, c) ∈ ps then ⟨(w.cell r c).alive, death_flag w r c⟩ else w.cell r c := by
  induction ps generalizing w with
  | nil => simp [flag_cells]
  | cons p ps ih =>
    have hstep : flag_cells (p :: ps) w = flag_cells ps (flag_cell w p.1 p.2) := rfl
    rw [hstep, ih]
    have ha := flag_cell_alive w p.1 p.2
    rw [death_flag_congr _ w ha, ha]
    by_cases hm : (r, c) ∈ ps
    · simp [hm]
    · by_cases hp : (r, c) = p
      · subst hp
        simp [hm, flag_cell, set_marked, death_flag]
      · have hne : ¬ (r = p.1 ∧ c = p.2) := fun h => hp (Prod.ext h.1 h.2)
        simp [hm, hp, flag_cell, set_marked, hne]

theorem flag_cells_ticks (ps : List (Fin SIZE × Fin SIZE)) (w : World) :
    (flag_cells ps w).ticks = w.ticks := by
  induction ps generalizing w with
  | nil => rfl
  | cons p ps ih =>
    have hstep : flag_cells (p :: ps) w = flag_cells ps (flag_cell w p.1 p.2) := rfl
    rw [hstep, ih]
    rfl

theorem commit_cell_marked (w : World) (i j r c : Fin SIZE) :
    ((commit_cell w i j).cell r c).marked_for_death = (w.cell r c).marked_for_death := by
  simp only [commit_cell, set_alive]
  split <;> rfl

theorem commit_cells_cell (ps : List (Fin SIZE × Fin SIZE)) (w : World) (r c : Fin SIZE) :
    (commit_cells ps w).cell r c
      = if (r, c) ∈ ps then
          ⟨!(w.cell r c).marked_for_death, (w.cell r c).marked_for_death⟩
        else w.cell r c := by
  induction ps generalizing w with
  | nil => simp [commit_cells]
  | cons p ps ih =>
    have hstep : commit_cells (p :: ps) w = commit_cells ps (commit_cell w p.1 p.2) := rfl
    rw [hstep, ih, commit_cell_marked]
    by_cases hm : (r, c) ∈ ps
    · simp [hm]
    · by_cases hp : (r, c) = p
      · subst hp
        simp [hm, commit_cell, set_alive]
      · have hne : ¬ (r = p.1 ∧ c = p.2) := fun h => hp (Prod.ext h.1 h.2)
        simp [hm, hp, commit_cell, set_alive, hne]

theorem commit_cells_ticks (ps : List (Fin SIZE × Fin SIZE)) (w : World) :
    (commit_cells ps w).ticks = w.ticks := by
  induction ps generalizing w with
  | nil => rfl
  | cons p ps ih =>
    have hstep : commit_cells (p :: ps) w = commit_cells ps (commit_cell w p.1 p.2) := rfl
    rw [hstep, ih]
    rfl

theorem cycle_world_eq (w : World) :
    cycle_world w
      = { commit_cells positions w with ticks := wrapInt ((commit_cells positions w).ticks + 1) } := by
  have h := nested_sweep (fun w i j => commit_cell w i j) w
  unfold cycle_world commit_cells
  simp only [h]

theorem cycle_world_cell (w : World) (r c : Fin SIZE) :
    (cycle_world w).cell r c
      = ⟨!(w.cell r c).marked_for_death, (w.cell r c).marked_for_death⟩ := by
  rw [cycle_world_eq]
  simp only [commit_cells_cell, mem_positions, if_true]

theorem cycle_world_ticks (w : World) : (cycle_world w).ticks = wrapInt (w.ticks + 1) := by
  rw [cycle_world_eq]
  simp only [commit_cells_ticks]

theorem flag_life_cell (w : World) (r c : Fin SIZE) :
    (flag_life w).cell r c = ⟨(w.cell r c).alive, death_flag w r c⟩ := by
  rw [flag_life_eq, flag_cells_cell]
  simp only [mem_positions, if_true]

theorem flag_life_ticks (w : World) : (flag_life w).ticks = w.ticks := by
  rw [flag_life_eq, flag_cells_ticks]

theorem generation_cell (w : World) (r c : Fin SIZE) :
    (generation w).cell r c = ⟨!death_flag w r c, death_flag w r c⟩ := by
  unfold generation
  rw [cycle_world_cell, flag_life_cell]

theorem generation_ticks (w : World) : (generation w).ticks = wrapInt (w.ticks + 1) := by
  unfold generation
  rw [cycle_world_ticks, flag_life_ticks]

theorem ite_succ_indicator (b : Bool) (n : Int) :
    (if b = true then n + 1 else n) = n + indicator b := by
  cases b <;> simp [indicator]

theorem indicator_bounds (b : Bool) : 0 ≤ indicator b ∧ indicator b ≤ 1 := by
  cases b <;> simp [indicator]

theorem neighbor_test_center (w : World) (i j : Int) : neighbor_test w i j i j = false := by
  unfold neighbor_test
  split <;> simp

theorem count_neighbors_sum (w : World) (i j : Int) :
    count_neighbors w i j
      = (indicator (neighbor_test w i j (i - 1) (j - 1)) + indicator (neighbor_test w i j (i - 1) j)
          + indicator (neighbor_test w i j (i - 1) (j + 1)))
        + (indicator (neighbor_test w i j i (j - 1)) + indicator (neighbor_test w i j i j)
          + indicator (neighbor_test w i j i (j + 1)))
        + (indicator (neighbor_test w i j (i + 1) (j - 1)) + indicator (neighbor_test w i j (i + 1) j)
          + indicator (neighbor_test w i j (i + 1) (j + 1))) := by
  unfold count_neighbors
  simp only [List.foldl_cons, List.foldl_nil, ite_succ_indicator]
  ring

theorem count_neighbors_bounds (w : World) (i j : Int) :
    0 ≤ count_neighbors w i j ∧ count_neighbors w i j ≤ 8 := by
  rw [count_neighbors_sum, neighbor_test_center]
  have h1 := indicator_bounds (neighbor_test w i j (i - 1) (j - 1))
  have h2 := indicator_bounds (neighbor_test w i j (i - 1) j)
  have h3 := indicator_bounds (neighbor_test w i j (i - 1) (j + 1))
  have h4 := indicator_bounds (neighbor_test w i j i (j - 1))
  have h5 := indicator_bounds (neighbor_test w i j i (j + 1))
  have h6 := indicator_bounds (neighbor_test w i j (i + 1) (j - 1))
  have h7 := indicator_bounds (neighbor_test w i j (i + 1) j)
  have h8 := indicator_bounds (neighbor_test w i j (i + 1) (j + 1))
  have h0 : indicator false = 0 := rfl
  omega

theorem sum_window (g : Fin SIZE → Int) (i : Int) :
    (∑ r : Fin SIZE, if |(r.val : Int) - i| ≤ 1 then g r else 0)
      = clipped g (i - 1) + clipped g i + clipped g (i + 1) := by
  have hs : ((SIZE : Nat) : Int) = 15 := rfl
  by_cases hlo : i < -1
  · have h1 : ∀ r : Fin SIZE, ¬ |(r.val : Int) - i| ≤ 1 := by
      intro r; rw [abs_le]; omega
    simp only [h1, if_false, Finset.sum_const_zero]
    unfold clipped
    rw [dif_neg (by omega), dif_neg (by omega), dif_neg (by omega)]
    rfl
  · by_cases hhi : i > 15
    · have h1 : ∀ r : Fin SIZE, ¬ |(r.val : Int) - i| ≤ 1 := by
        intro r; rw [abs_le]; have := r.isLt; omega
      simp only [h1, if_false, Finset.sum_const_zero]
      unfold clipped
      rw [dif_neg (by omega), dif_neg (by omega), dif_neg (by omega)]
      rfl
    · have h0 : -1 ≤ i := by omega
      have h2 : i ≤ 15 := by omega
      interval_cases i <;>
        simp [Finset.sum_fin_eq_sum_range, Finset.sum_range_succ, clipped, abs_le] <;>
        (repeat rw [dif_pos (by decide)])

theorem indicator_neighbor_test (w : World) (i j row col : Int) :
    indicator (neighbor_test w i j row col)
      = clipped (fun r => clipped (fun c =>
          if ¬ ((r.val : Int) = i ∧ (c.val : Int) = j) ∧ (w.cell r c).alive = true
          then 1 else 0) col) row := by
  unfold neighbor_test clipped
  by_cases hr : row ≥ 0 ∧ row < SIZE
  · by_cases hc : col ≥ 0 ∧ col < SIZE
    · have h : row ≥ 0 ∧ row < SIZE ∧ col ≥ 0 ∧ col < SIZE := ⟨hr.1, hr.2, hc.1, hc.2⟩
      rw [dif_pos h, dif_pos hr]
      beta_reduce
      rw [dif_pos hc]
      have e1 : ((row.toNat : Nat) : Int) = row := Int.toNat_of_nonneg hr.1
      have e2 : ((col.toNat : Nat) : Int) = col := Int.toNat_of_nonneg hc.1
      simp only [e1, e2]
      by_cases hq : row = i ∧ col = j
      · simp [hq, indicator]
      · have hq2 : (row == i && col == j) = false := by
          simpa using hq
        rw [hq2]
        cases (w.cell ⟨row.toNat, _⟩ ⟨col.toNat, _⟩).alive <;> simp [hq, indicator]
    · have h : ¬ (row ≥ 0 ∧ row < SIZE ∧ col ≥ 0 ∧ col < SIZE) := fun h => hc ⟨h.2.2.1, h.2.2.2⟩
      rw [dif_neg h, dif_pos hr]
      beta_reduce
      rw [dif_neg hc]
      rfl
  · have h : ¬ (row ≥ 0 ∧ row < SIZE ∧ col ≥ 0 ∧ col < SIZE) := fun h => hr ⟨h.1, h.2.1⟩
    rw [dif_neg h, dif_neg hr]
    rfl

theorem moore_count_sum (w : World) (i j : Int) :
    ((moore_count w i j : Nat) : Int)
      = ∑ r : Fin SIZE, if |(r.val : Int) - i| ≤ 1 then
          (∑ c : Fin SIZE, if |(c.val : Int) - j| ≤ 1 then
            (if ¬ ((r.val : Int) = i ∧ (c.val : Int) = j) ∧ (w.cell r c).alive = true
              then (1 : Int) else 0) else 0) else 0 := by
  unfold moore_count
  rw [Finset.card_filter, Fintype.sum_prod_type]
  push_cast
  refine Finset.sum_congr rfl (fun r _ => ?_)
  by_cases hr : |(r.val : Int) - i| ≤ 1
  · simp only [hr, true_and, if_true]
    refine Finset.sum_congr rfl (fun c _ => ?_)
    by_cases hc : |(c.val : Int) - j| ≤ 1
    · simp only [hc, true_and, if_true]
    · simp only [hc, false_and, if_false]
  · simp only [hr, false_and, if_false, Finset.sum_const_zero]

theorem count_neighbors_eq_moore (w : World) (i j : Int) :
    count_neighbors w i j = moore_count w i j := by
  rw [moore_count_sum, sum_window]
  simp only [sum_window]
  rw [count_neighbors_sum]
  simp only [indicator_neighbor_test]
  unfold clipped
  split_ifs <;> rfl

theorem world_ext (w w2 : World) (hc : ∀ r c, w.cell r c = w2.cell r c) (ht : w.ticks = w2.ticks) :
    w = w2 := by
  cases w; cases w2
  simp only [World.mk.injEq]
  exact ⟨funext fun r => funext fun c => hc r c, ht⟩

theorem flag_cells_perm (w : World) (ps qs : List (Fin SIZE × Fin SIZE)) (h : ps.Perm qs) :
    flag_cells ps w = flag_cells qs w := by
  apply world_ext
  · intro r c
    rw [flag_cells_cell, flag_cells_cell]
    simp only [h.mem_iff]
  · rw [flag_cells_ticks, flag_cells_ticks]

theorem count_all_alive : ∀ i j : Fin SIZE, count_neighbors all_alive i j
      = if (i.val = 0 ∨ i.val = 14) ∧ (j.val = 0 ∨ j.val = 14) then 3
        else if i.val = 0 ∨ i.val = 14 ∨ j.val = 0 ∨ j.val = 14 then 5 else 8 := by
  decide

theorem unit_ext (u v : unit) (ha : u.alive = v.alive)
    (hm : u.marked_for_death = v.marked_for_death) : u = v := by
  cases u; cases v
  simp only [unit.mk.injEq]
  exact ⟨ha, hm⟩

theorem bool_increment (b : Bool) : int_to_bool (bool_to_int b + 1) = true := by
  cases b <;> rfl

theorem incr_alive_alive (w : World) (i j : Nat) (r c : Fin SIZE) :
    ((incr_alive w i j).cell r c).alive
      = ((w.cell r c).alive || decide (r.val = i ∧ c.val = j)) := by
  simp only [incr_alive, bool_increment]
  split
  · next h => simp [h]
  · next h => simp [h]

theorem incr_alive_marked (w : World) (i j : Nat) (r c : Fin SIZE) :
    ((incr_alive w i j).cell r c).marked_for_death = (w.cell r c).marked_for_death := by
  simp only [incr_alive]
  split <;> rfl

theorem incr_alive_ticks (w : World) (i j : Nat) : (incr_alive w i j).ticks = w.ticks := rfl

theorem glider_alive (w : World) (r c : Fin SIZE) :
    ((seedSpaceshipGlider w).cell r c).alive
      = ((w.cell r c).alive || decide ((r.val, c.val) ∈ glider_table)) := by
  simp only [seedSpaceshipGlider, incr_alive_alive, glider_table]
  simp [Bool.or_assoc]

theorem blinker_alive (w : World) (r c : Fin SIZE) :
    ((seedBlinkerOscillator w).cell r c).alive
      = ((w.cell r c).alive || decide ((r.val, c.val) ∈ blinker_table)) := by
  simp only [seedBlinkerOscillator, incr_alive_alive, blinker_table]
  simp [Bool.or_assoc]

theorem lwss_alive (w : World) (r c : Fin SIZE) :
    ((seedLWSS w).cell r c).alive
      = ((w.cell r c).alive || decide ((r.val, c.val) ∈ lwss_table)) := by
  simp only [seedLWSS, incr_alive_alive, lwss_table]
  simp [Bool.or_assoc]

theorem glider_marked (w : World) (r c : Fin SIZE) :
    ((seedSpaceshipGlider w).cell r c).marked_for_death = (w.cell r c).marked_for_death := by
  simp only [seedSpaceshipGlider, incr_alive_marked]

theorem blinker_marked (w : World) (r c : Fin SIZE) :
    ((seedBlinkerOscillator w).cell r c).marked_for_death = (w.cell r c).marked_for_death := by
  simp only [seedBlinkerOscillator, incr_alive_marked]

theorem lwss_marked (w : World) (r c : Fin SIZE) :
    ((seedLWSS w).cell r c).marked_for_death = (w.cell r c).marked_for_death := by
  simp only [seedLWSS, incr_alive_marked]

theorem glider_ticks (w : World) : (seedSpaceshipGlider w).ticks = w.ticks := rfl

theorem blinker_ticks (w : World) : (seedBlinkerOscillator w).ticks = w.ticks := rfl

theorem lwss_ticks (w : World) : (seedLWSS w).ticks = w.ticks := rfl

theorem init_cells_eq (w : World) :
    init_cells w = positions.foldl (fun w p => set_cell w p.1 p.2 ⟨false, false⟩) w :=
  nested_sweep (fun w i j => set_cell w i j ⟨false, false⟩) w

theorem clear_cells_cell (ps : List (Fin SIZE × Fin SIZE)) (w : World) (r c : Fin SIZE) :
    (ps.foldl (fun w p => set_cell w p.1 p.2 ⟨false, false⟩) w).cell r c
      = if (r, c) ∈ ps then ⟨false, false⟩ else w.cell r c := by
  induction ps generalizing w with
  | nil => simp
  | cons p ps ih =>
    rw [List.foldl_cons, ih]
    by_cases hm : (r, c) ∈ ps
    · simp [hm]
    · by_cases hp : (r, c) = p
      · subst hp
        simp [hm, set_cell]
      · have hne : ¬ (r = p.1 ∧ c = p.2) := fun h => hp (Prod.ext h.1 h.2)
        simp [hm, hp, set_cell, hne]

theorem clear_cells_ticks (ps : List (Fin SIZE × Fin SIZE)) (w : World) :
    (ps.foldl (fun w p => set_cell w p.1 p.2 ⟨false, false⟩) w).ticks = w.ticks := by
  induction ps generalizing w with
  | nil => rfl
  | cons p ps ih =>
    rw [List.foldl_cons, ih]
    rfl

theorem init_cells_cell (w : World) (r c : Fin SIZE) :
    (init_cells w).cell r c = ⟨false, false⟩ := by
  rw [init_cells_eq, clear_cells_cell]
  simp only [mem_positions, if_true]

theorem init_cells_ticks (w : World) : (init_cells w).ticks = w.ticks := by
  rw [init_cells_eq, clear_cells_ticks]

theorem or_swap_right (a b c : Bool) : ((a || b) || c) = ((a || c) || b) := by
  cases a <;> cases b <;> cases c <;> rfl

theorem glider_blinker_comm (g : World) :
    seedBlinkerOscillator (seedSpaceshipGlider g) = seedSpaceshipGlider (seedBlinkerOscillator g) := by
  apply world_ext
  · intro r c
    apply unit_ext
    · rw [blinker_alive, glider_alive, glider_alive, blinker_alive, or_swap_right]
    · rw [blinker_marked, glider_marked, glider_marked, blinker_marked]
  · rfl

theorem lwss_blinker_comm (g : World) :
    seedBlinkerOscillator (seedLWSS g) = seedLWSS (seedBlinkerOscillator g) := by
  apply world_ext
  · intro r c
    apply unit_ext
    · rw [blinker_alive, lwss_alive, lwss_alive, blinker_alive, or_swap_right]
    · rw [blinker_marked, lwss_marked, lwss_marked, blinker_marked]
  · rfl

theorem glider_lwss_comm (g : World) :
    seedLWSS (seedSpaceshipGlider g) = seedSpaceshipGlider (seedLWSS g) := by
  apply world_ext
  · intro r c
    apply unit_ext
    · rw [lwss_alive, glider_alive, glider_alive, lwss_alive, or_swap_right]
    · rw [lwss_marked, glider_marked, glider_marked, lwss_marked]
  · rfl

theorem generation_grid_of (l l2 : List (Nat × Nat))
    (h : ∀ r c : Fin SIZE, (!death_flag (grid_of l) r c) = decide ((r.val, c.val) ∈ l2))
    (w : World) (hw : ∀ r c : Fin SIZE, (w.cell r c).alive = decide ((r.val, c.val) ∈ l)) :
    ∀ r c : Fin SIZE, ((generation w).cell r c).alive = decide ((r.val, c.val) ∈ l2) := by
  intro r c
  rw [generation_cell]
  have hc : ∀ r c, (w.cell r c).alive = ((grid_of l).cell r c).alive := fun r c => hw r c
  rw [death_flag_congr w (grid_of l) hc]
  exact h r c

theorem glider_phase1 : ∀ r c : Fin SIZE, (!death_flag (grid_of glider_table) r c)
    = decide ((r.val, c.val) ∈ [(0, 1), (1, 2), (1, 3), (2, 1), (2, 2)]) := by
  decide!

theorem glider_phase2 : ∀ r c : Fin SIZE,
    (!death_flag (grid_of [(0, 1), (1, 2), (1, 3), (2, 1), (2, 2)]) r c)
    = decide ((r.val, c.val) ∈ [(0, 2), (1, 3), (2, 1), (2, 2), (2, 3)]) := by
  decide!

theorem glider_phase3 : ∀ r c : Fin SIZE,
    (!death_flag (grid_of [(0, 2), (1, 3), (2, 1), (2, 2), (2, 3)]) r c)
    = decide ((r.val, c.val) ∈ [(1, 1), (1, 3), (2, 2), (2, 3), (3, 2)]) := by
  decide!

theorem glider_phase4 : ∀ r c : Fin SIZE,
    (!death_flag (grid_of [(1, 1), (1, 3), (2, 2), (2, 3), (3, 2)]) r c)
    = decide ((r.val, c.val) ∈ glider_table.map (fun p => (p.1 + 1, p.2 + 1))) := by
  decide!

theorem neighbor_test_block (r c : Nat) (hr : r ≤ 13) (hc : c ≤ 13) (w : World)
    (hw : ∀ i j : Fin SIZE, (w.cell i j).alive = true ↔
      ((i.val = r ∨ i.val = r + 1) ∧ (j.val = c ∨ j.val = c + 1)))
    (i j row col : Int) :
    neighbor_test w i j row col = (!(row == i && col == j) && in_block r c row col) := by
  have hs : ((SIZE : Nat) : Int) = 15 := rfl
  unfold neighbor_test in_block
  split
  · next h =>
    congr 1
    rw [Bool.eq_iff_iff, hw]
    simp only [decide_eq_true_eq]
    constructor
    · intro hh; omega
    · intro hh; omega
  · next h =>
    have : ¬ ((row = r ∨ row = r + 1) ∧ (col = c ∨ col = c + 1)) := by omega
    simp [this]

theorem block_rule (r c : Int) (i j : Int) :
    let n := (indicator (!(i - 1 == i && j - 1 == j) && decide ((i - 1 = r ∨ i - 1 = r + 1) ∧ (j - 1 = c ∨ j - 1 = c + 1)))
          + indicator (!(i - 1 == i && j == j) && decide ((i - 1 = r ∨ i - 1 = r + 1) ∧ (j = c ∨ j = c + 1)))
          + indicator (!(i - 1 == i && j + 1 == j) && decide ((i - 1 = r ∨ i - 1 = r + 1) ∧ (j + 1 = c ∨ j + 1 = c + 1))))
        + (indicator (!(i == i && j - 1 == j) && decide ((i = r ∨ i = r + 1) ∧ (j - 1 = c ∨ j - 1 = c + 1)))
          + indicator (!(i == i && j == j) && decide ((i = r ∨ i = r + 1) ∧ (j = c ∨ j = c + 1)))
          + indicator (!(i == i && j + 1 == j) && decide ((i = r ∨ i = r + 1) ∧ (j + 1 = c ∨ j + 1 = c + 1))))
        + (indicator (!(i + 1 == i && j - 1 == j) && decide ((i + 1 = r ∨ i + 1 = r + 1) ∧ (j - 1 = c ∨ j - 1 = c + 1)))
          + indicator (!(i + 1 == i && j == j) && decide ((i + 1 = r ∨ i + 1 = r + 1) ∧ (j = c ∨ j = c + 1)))
          + indicator (!(i + 1 == i && j + 1 == j) && decide ((i + 1 = r ∨ i + 1 = r + 1) ∧ (j + 1 = c ∨ j + 1 = c + 1))))
    (n = 3 ∨ (((i = r ∨ i = r + 1) ∧ (j = c ∨ j = c + 1)) ∧ n = 2))
      ↔ ((i = r ∨ i = r + 1) ∧ (j = c ∨ j = c + 1)) := by
  intro n
  have e1 : (i - 1 == i) = false := by simp
  have e2 : (i + 1 == i) = false := by simp
  have e3 : (j - 1 == j) = false := by simp
  have e4 : (j + 1 == j) = false := by simp
  simp only [n, e1, e2, e3, e4, beq_self_eq_true, Bool.false_and, Bool.and_false, Bool.and_true,
    Bool.true_and, Bool.not_false, Bool.not_true]
  by_cases h1 : (i - 1 = r ∨ i - 1 = r + 1) <;> by_cases h2 : (i = r ∨ i = r + 1) <;>
  by_cases h3 : (i + 1 = r ∨ i + 1 = r + 1) <;> by_cases h4 : (j - 1 = c ∨ j - 1 = c + 1) <;>
  by_cases h5 : (j = c ∨ j = c + 1) <;> by_cases h6 : (j + 1 = c ∨ j + 1 = c + 1) <;>
  simp only [h1, h2, h3, h4, h5, h6, indicator, and_self, and_true, true_and, and_false, false_and,
    decide_True, decide_False, if_true, if_false, Bool.false_eq_true] <;>
  first
    | omega
    | norm_num

theorem block_alive (r c : Nat) (w : World)
    (hw : ∀ i j : Fin SIZE, (w.cell i j).alive = true ↔
      ((i.val = r ∨ i.val = r + 1) ∧ (j.val = c ∨ j.val = c + 1)))
    (i j : Fin SIZE) : (w.cell i j).alive = in_block r c i.val j.val := by
  unfold in_block
  rw [Bool.eq_iff_iff, hw]
  simp only [decide_eq_true_eq]
  constructor
  · intro hh; omega
  · intro hh; omega

theorem wrapInt_id (x : Int) (h1 : INT_MIN ≤ x) (h2 : x ≤ INT_MAX) : wrapInt x = x := by
  unfold wrapInt
  simp only [INT_MIN, INT_MAX, INT_BITS] at *
  norm_num at *
  omega

theorem wrapInt_le (x : Int) : wrapInt x ≤ INT_MAX := by
  unfold wrapInt
  simp only [INT_MAX, INT_BITS]
  norm_num
  omega

theorem wrapInt_ge (x : Int) : INT_MIN ≤ wrapInt x := by
  unfold wrapInt
  simp only [INT_MIN, INT_BITS]
  norm_num
  omega

theorem wrapInt_wrapInt_succ (x : Int) : wrapInt (wrapInt x + 1) = wrapInt (x + 1) := by
  unfold wrapInt
  simp only [INT_BITS]
  norm_num
  omega

theorem main_loop_ticks (n : Nat) :
    ∀ (s : World × String) (k : Int), s.1.ticks = wrapInt k →
      (main_loop n s).1.ticks = wrapInt (k + n) := by
  induction n with
  | zero => intro s k h; simpa [main_loop] using h
  | succ n ih =>
    intro s k h
    rw [main_loop, ih _ (k + 1)]
    · push_cast; congr 1; ring
    · show (cycle_world (flag_life s.1)).ticks = _
      rw [cycle_world_ticks, flag_life_ticks, h, wrapInt_wrapInt_succ]

theorem randomize_from_ticks (rand_values : Nat → Nat) (k0 : Nat) (w : World) :
    (randomize_from rand_values k0 w).1.ticks = w.ticks := by
  unfold randomize_from
  rw [nested_foldl (fun (s : World × Nat) (i j : Fin SIZE) =>
    (set_alive s.1 i j (int_to_bool ((rand_values s.2 : Int) % 2)), s.2 + 1))]
  generalize (List.finRange SIZE).flatMap (fun i => (List.finRange SIZE).map (fun j => (i, j))) = ps
  generalize hs : (w, k0) = s
  have : w.ticks = s.1.ticks := by rw [← hs]
  rw [this]
  clear hs this
  induction ps generalizing s with
  | nil => rfl
  | cons p ps ih => rw [List.foldl_cons, ih]; rfl

theorem randomize_ticks (rand_values : Nat → Nat) (w : World) :
    (randomize rand_values w).ticks = w.ticks :=
  randomize_from_ticks rand_values 0 w

theorem neighbor_test_local (w w2 : World) (i j : Fin SIZE)
    (h : ∀ r c : Fin SIZE, r.val ≤ i.val + 1 → i.val ≤ r.val + 1 → c.val ≤ j.val + 1 →
      j.val ≤ c.val + 1 → (w.cell r c).alive = (w2.cell r c).alive)
    (row col : Int) (hr1 : row ≤ i.val + 1) (hr2 : (i.val : Int) ≤ row + 1)
    (hc1 : col ≤ j.val + 1) (hc2 : (j.val : Int) ≤ col + 1) :
    neighbor_test w i.val j.val row col = neighbor_test w2 i.val j.val row col := by
  unfold neighbor_test
  split
  · next hin =>
    rw [h _ _ (by simp only []; omega) (by simp only []; omega) (by simp only []; omega)
      (by simp only []; omega)]
  · rfl

theorem count_neighbors_local (w w2 : World) (i j : Fin SIZE)
    (h : ∀ r c : Fin SIZE, r.val ≤ i.val + 1 → i.val ≤ r.val + 1 → c.val ≤ j.val + 1 →
      j.val ≤ c.val + 1 → (w.cell r c).alive = (w2.cell r c).alive) :
    count_neighbors w i.val j.val = count_neighbors w2 i.val j.val := by
  have k := neighbor_test_local w w2 i j h
  rw [count_neighbors_sum, count_neighbors_sum,
    k _ _ (by omega) (by omega) (by omega) (by omega),
    k (i.val - 1) j.val (by omega) (by omega) (by omega) (by omega),
    k (i.val - 1) (j.val + 1) (by omega) (by omega) (by omega) (by omega),
    k i.val (j.val - 1) (by omega) (by omega) (by omega) (by omega),
    k i.val j.val (by omega) (by omega) (by omega) (by omega),
    k i.val (j.val + 1) (by omega) (by omega) (by omega) (by omega),
    k (i.val + 1) (j.val - 1) (by omega) (by omega) (by omega) (by omega),
    k (i.val + 1) j.val (by omega) (by omega) (by omega) (by omega),
    k (i.val + 1) (j.val + 1) (by omega) (by omega) (by omega) (by omega)]

theorem neighbor_test_transpose (w : World) (i j row col : Int) :
    neighbor_test (transpose w) i j row col = neighbor_test w j i col row := by
  unfold neighbor_test transpose
  by_cases h : row ≥ 0 ∧ row < SIZE ∧ col ≥ 0 ∧ col < SIZE
  · have h2 : col ≥ 0 ∧ col < SIZE ∧ row ≥ 0 ∧ row < SIZE := ⟨h.2.2.1, h.2.2.2, h.1, h.2.1⟩
    rw [dif_pos h, dif_pos h2, Bool.and_comm (row == i) (col == j)]
  · have h2 : ¬ (col ≥ 0 ∧ col < SIZE ∧ row ≥ 0 ∧ row < SIZE) :=
      fun k => h ⟨k.2.2.1, k.2.2.2, k.1, k.2.1⟩
    rw [dif_neg h, dif_neg h2]

theorem count_neighbors_transpose (w : World) (i j : Int) :
    count_neighbors (transpose w) i j = count_neighbors w j i := by
  rw [count_neighbors_sum, count_neighbors_sum]
  simp only [neighbor_test_transpose]
  ring

theorem neighbor_test_flip_rows (w : World) (i j row col : Int) :
    neighbor_test (flip_rows w) i j row col = neighbor_test w (14 - i) j (14 - row) col := by
  have hs : ((SIZE : Nat) : Int) = 15 := rfl
  unfold neighbor_test flip_rows
  by_cases h : row ≥ 0 ∧ row < SIZE ∧ col ≥ 0 ∧ col < SIZE
  · have h2 : 14 - row ≥ 0 ∧ 14 - row < SIZE ∧ col ≥ 0 ∧ col < SIZE := by omega
    rw [dif_pos h, dif_pos h2]
    have e : (row == i) = (14 - row == 14 - i) := by
      rw [Bool.eq_iff_iff]; simp only [beq_iff_eq]; omega
    have em : mirror ⟨row.toNat, by omega⟩ = (⟨(14 - row).toNat, by omega⟩ : Fin SIZE) := by
      apply Fin.ext
      simp only [mirror]
      omega
    simp only [e, em]
  · have h2 : ¬ (14 - row ≥ 0 ∧ 14 - row < SIZE ∧ col ≥ 0 ∧ col < SIZE) := by omega
    rw [dif_neg h, dif_neg h2]

theorem count_neighbors_flip_rows (w : World) (i j : Int) :
    count_neighbors (flip_rows w) i j = count_neighbors w (14 - i) j := by
  have e1 : 14 - (i - 1) = 14 - i + 1 := by ring
  have e2 : 14 - (i + 1) = 14 - i - 1 := by ring
  rw [count_neighbors_sum, count_neighbors_sum]
  simp only [neighbor_test_flip_rows, e1, e2]
  ring

theorem flip_cols_eq (w : World) : flip_cols w = transpose (flip_rows (transpose w)) := rfl

theorem death_flag_transpose (w : World) (r c : Fin SIZE) :
    death_flag (transpose w) r c = death_flag w c r := by
  unfold death_flag
  rw [count_neighbors_transpose]
  rfl

theorem death_flag_flip_rows (w : World) (r c : Fin SIZE) :
    death_flag (flip_rows w) r c = death_flag w (mirror r) c := by
  have hr : r.val < 15 := r.isLt
  have e : (((mirror r).val : Nat) : Int) = 14 - (r.val : Int) := by
    simp only [mirror]
    omega
  unfold death_flag
  rw [count_neighbors_flip_rows, e]
  rfl

theorem generation_transpose (w : World) :
    generation (transpose w) = transpose (generation w) := by
  apply world_ext
  · intro r c
    show (generation (transpose w)).cell r c = (generation w).cell c r
    rw [generation_cell, generation_cell, death_flag_transpose]
  · show (generation (transpose w)).ticks = (generation w).ticks
    rw [generation_ticks, generation_ticks]
    rfl

theorem generation_flip_rows (w : World) :
    generation (flip_rows w) = flip_rows (generation w) := by
  apply world_ext
  · intro r c
    show (generation (flip_rows w)).cell r c = (generation w).cell (mirror r) c
    rw [generation_cell, generation_cell, death_flag_flip_rows]
  · show (generation (flip_rows w)).ticks = (generation w).ticks
    rw [generation_ticks, generation_ticks]
    rfl

theorem moore_count_le (w : World) (i j : Int) : moore_count w i j ≤ alive_count w := by
  unfold moore_count alive_count
  apply Finset.card_le_card
  intro p hp
  simp only [Finset.mem_filter, Finset.mem_univ, true_and] at hp ⊢
  exact hp.2.2.2

theorem moore_count_lt (w : World) (i j : Fin SIZE) (h : (w.cell i j).alive = true) :
    moore_count w i.val j.val < alive_count w := by
  unfold moore_count alive_count
  apply Finset.card_lt_card
  rw [Finset.ssubset_iff_of_subset]
  · refine ⟨(i, j), ?_, ?_⟩
    · simp only [Finset.mem_filter, Finset.mem_univ, true_and]
      exact h
    · simp only [Finset.mem_filter, Finset.mem_univ, true_and, not_and, not_not]
      intro _ _ hne
      exact absurd trivial (hne trivial)
  · intro p hp
    simp only [Finset.mem_filter, Finset.mem_univ, true_and] at hp ⊢
    exact hp.2.2.2

theorem alive_count_init (w : World) : alive_count (init_cells w) = 0 := by
  unfold alive_count
  rw [Finset.card_eq_zero, Finset.filter_eq_empty_iff]
  intro p _
  rw [init_cells_cell]
  simp

theorem testBit_bits_to_nat (l : List Bool) (k : Nat) :
    (bits_to_nat l).testBit k = l.getD k false := by
  induction l generalizing k with
  | nil => simp [bits_to_nat]
  | cons b bs ih =>
    cases k with
    | zero =>
      rw [bits_to_nat, Nat.testBit_zero]
      cases b <;> simp
    | succ k =>
      rw [bits_to_nat, Nat.testBit_succ]
      have e : ((if b = true then 1 else 0) + 2 * bits_to_nat bs) / 2 = bits_to_nat bs := by
        cases b
        · simp
        · simp only [if_true]; omega
      rw [e, ih]
      simp

theorem getD_map_range {α : Type} (f : Nat → α) (n k : Nat) (d : α) (h : k < n) :
    ((List.range n).map f).getD k d = f k := by
  rw [List.getD_eq_getElem?_getD, List.getElem?_map, List.getElem?_range h]
  rfl

theorem bit_at_rows_step (rows : List Nat) (r c : Nat) (hr : r < SIZE) (hc : c < SIZE) :
    bit_at (rows_step rows) r c = rows_alive rows r c := by
  unfold bit_at rows_step
  rw [getD_map_range _ _ _ _ hr, testBit_bits_to_nat, getD_map_range _ _ _ _ hc]

theorem indicator_look (w : World) (rows : List Nat) (h : represents w rows)
    (i j row col : Int) (pr pc : Nat) (hr : row = (pr : Int) - 1) (hc : col = (pc : Int) - 1)
    (hne : ¬ (row = i ∧ col = j)) :
    indicator (neighbor_test w i j row col) = (look rows pr pc : Nat) := by
  have hs : ((SIZE : Nat) : Int) = 15 := rfl
  have hs2 : SIZE = 15 := rfl
  unfold neighbor_test look
  by_cases hin : row ≥ 0 ∧ row < SIZE ∧ col ≥ 0 ∧ col < SIZE
  · have hq : (row == i && col == j) = false := by simpa using hne
    rw [dif_pos hin, if_neg (by omega), hq, h]
    have e1 : row.toNat = pr - 1 := by omega
    have e2 : col.toNat = pc - 1 := by omega
    simp only [e1, e2, Bool.not_false, Bool.true_and]
    cases bit_at rows (pr - 1) (pc - 1) <;> simp [indicator]
  · rw [dif_neg hin, if_pos (by omega)]
    simp [indicator]

theorem count_neighbors_rows (w : World) (rows : List Nat) (h : represents w rows)
    (r c : Fin SIZE) :
    count_neighbors w r.val c.val = (rows_count rows r.val c.val : Nat) := by
  have k := indicator_look w rows h r.val c.val
  rw [count_neighbors_sum, neighbor_test_center,
    k _ _ r.val c.val rfl rfl (by omega),
    k _ _ r.val (c.val + 1) rfl (by push_cast; ring) (by omega),
    k _ _ r.val (c.val + 2) rfl (by push_cast; ring) (by omega),
    k _ _ (r.val + 1) c.val (by push_cast; ring) rfl (by omega),
    k _ _ (r.val + 1) (c.val + 2) (by push_cast; ring) (by push_cast; ring) (by omega),
    k _ _ (r.val + 2) c.val (by push_cast; ring) rfl (by omega),
    k _ _ (r.val + 2) (c.val + 1) (by push_cast; ring) (by push_cast; ring) (by omega),
    k _ _ (r.val + 2) (c.val + 2) (by push_cast; ring) (by push_cast; ring) (by omega)]
  unfold rows_count
  simp only [indicator]
  push_cast
  ring

theorem represents_generation (w : World) (rows : List Nat) (h : represents w rows) :
    represents (generation w) (rows_step rows) := by
  intro r c
  rw [generation_cell, bit_at_rows_step rows r.val c.val r.isLt c.isLt]
  simp only [death_flag, rows_alive, count_neighbors_rows w rows h, h r c]
  have e3 : ((((rows_count rows r.val c.val : Nat) : Int) == 3)
      = (rows_count rows r.val c.val == 3)) := by
    rw [Bool.eq_iff_iff]; simp only [beq_iff_eq]; omega
  have e2 : ((((rows_count rows r.val c.val : Nat) : Int) == 2)
      = (rows_count rows r.val c.val == 2)) := by
    rw [Bool.eq_iff_iff]; simp only [beq_iff_eq]; omega
  rw [e3, e2, Bool.not_not]

theorem orbit_represents (l : List (List Nat)) :
    ∀ (w : World) (k : Nat), orbit_check l = true → k < l.length → represents w (l.getD 0 []) →
      represents (generations k w) (l.getD k []) := by
  induction l with
  | nil => intro w k _ hk; simp at hk
  | cons a l ih =>
    intro w k hc hk hw
    cases k with
    | zero => exact hw
    | succ k =>
      cases l with
      | nil => simp at hk
      | cons b rest =>
        simp only [orbit_check, Bool.and_eq_true, decide_eq_true_eq] at hc
        have hw2 : represents (generation w) ((b :: rest).getD 0 []) := by
          have := represents_generation w a hw
          rw [hc.1] at this
          exact this
        exact ih (generation w) k hc.2 (by simpa using hk) hw2

theorem lwss_orbit_check : orbit_check lwss_orbit = true := by decide!

theorem lwss_seed_rows : ∀ r c : Fin SIZE,
    decide ((r.val, c.val) ∈ lwss_table) = bit_at (lwss_orbit.getD 0 []) r.val c.val := by
  decide

theorem lwss_final_rows : ∀ r c : Fin SIZE,
    bit_at (lwss_orbit.getD 4 []) r.val c.val
      = decide ((r.val, c.val) ∈ lwss_table.map (fun p => (p.1, p.2 - 2))) := by
  decide

theorem blinker_orbit_check : orbit_check blinker_orbit = true := by decide!

theorem blinker_seed_rows : ∀ r c : Fin SIZE,
    decide ((r.val, c.val) ∈ blinker_table) = bit_at (blinker_orbit.getD 0 []) r.val c.val := by
  decide

theorem blinker_cycle_rows : blinker_orbit.getD 29 [] = blinker_orbit.getD 26 [] := by decide

theorem blinker_rows_differ : ∀ k : Fin 28, ∃ r c : Fin SIZE,
    bit_at (blinker_orbit.getD (k.val + 1) []) r.val c.val
      ≠ bit_at (blinker_orbit.getD 0 []) r.val c.val := by
  decide!

theorem generations_add (a b : Nat) (w : World) :
    generations (a + b) w = generations a (generations b w) := by
  induction b generalizing w with
  | zero => rfl
  | succ b ih =>
    show generations (a + b + 1) w = generations a (generations b (generation w))
    rw [← ih]
    rfl

theorem same_alive_generation (w w2 : World) (h : same_alive w w2) :
    same_alive (generation w) (generation w2) := by
  intro r c
  rw [generation_cell, generation_cell, death_flag_congr w w2 h]

theorem same_alive_generations (n : Nat) (w w2 : World) (h : same_alive w w2) :
    same_alive (generations n w) (generations n w2) := by
  induction n generalizing w w2 with
  | zero => exact h
  | succ n ih => exact ih _ _ (same_alive_generation w w2 h)

theorem blinker_represents (w : World) (k : Nat) (hk : k < 30) :
    represents (generations k (seedBlinkerOscillator (init_cells w)))
      (blinker_orbit.getD k []) := by
  refine orbit_represents blinker_orbit _ k blinker_orbit_check hk ?_
  intro r c
  rw [blinker_alive, init_cells_cell, ← blinker_seed_rows r c]
  simp

theorem blinker_period (w : World) (m : Nat) :
    same_alive (generations (26 + m + 3) (seedBlinkerOscillator (init_cells w)))
      (generations (26 + m) (seedBlinkerOscillator (init_cells w))) := by
  have h29 := blinker_represents w 29 (by decide)
  have h26 := blinker_represents w 26 (by decide)
  rw [blinker_cycle_rows] at h29
  have hs : same_alive (generations 29 (seedBlinkerOscillator (init_cells w)))
      (generations 26 (seedBlinkerOscillator (init_cells w))) := by
    intro r c
    rw [h29 r c, h26 r c]
  have e1 : 26 + m + 3 = m + 29 := by omega
  have e2 : 26 + m = m + 26 := by omega
  rw [e1, e2, generations_add, generations_add]
  exact same_alive_generations m _ _ hs

theorem blinker_reduce (w : World) (p : Nat) (hp : 1 ≤ p) :
    ∃ q, 1 ≤ q ∧ q ≤ 28 ∧
      same_alive (generations p (seedBlinkerOscillator (init_cells w)))
        (generations q (seedBlinkerOscillator (init_cells w))) := by
  induction p using Nat.strong_induction_on with
  | _ p ih =>
    by_cases h : p ≤ 28
    · exact ⟨p, hp, h, fun _ _ => rfl⟩
    · obtain ⟨q, h1, h2, h3⟩ := ih (p - 3) (by omega) (by omega)
      refine ⟨q, h1, h2, fun r c => ?_⟩
      have hper := blinker_period w (p - 29)
      have e1 : 26 + (p - 29) + 3 = p := by omega
      have e2 : 26 + (p - 29) = p - 3 := by omega
      rw [e1, e2] at hper
      rw [hper r c, h3 r c]

theorem blinker_seed_never_recurs (w : World) (p : Nat) :
    ∃ r c : Fin SIZE,
      ((generations (p + 1) (seedBlinkerOscillator (init_cells w))).cell r c).alive
        ≠ ((seedBlinkerOscillator (init_cells w)).cell r c).alive := by
  obtain ⟨q, h1, h2, h3⟩ := blinker_reduce w (p + 1) (by omega)
  obtain ⟨r, c, hd⟩ := blinker_rows_differ ⟨q - 1, by omega⟩
  have e : q - 1 + 1 = q := by omega
  simp only [e] at hd
  refine ⟨r, c, ?_⟩
  have hq := blinker_represents w q (by omega) r c
  have h0 := blinker_represents w 0 (by decide) r c
  have h0b : ((seedBlinkerOscillator (init_cells w)).cell r c).alive
      = bit_at (blinker_orbit.getD 0 []) r.val c.val := h0
  rw [h3 r c, hq, h0b]
  exact hd

theorem random_sweep (rv : Nat → Nat) (ps : List (Fin SIZE × Fin SIZE)) :
    ∀ (w : World) (k0 : Nat), ps.Nodup → ∀ r c : Fin SIZE,
      ((r, c) ∉ ps →
        (ps.foldl (fun (s : World × Nat) p =>
          (set_alive s.1 p.1 p.2 (int_to_bool ((rv s.2 : Int) % 2)), s.2 + 1)) (w, k0)).1.cell r c
          = w.cell r c) ∧
      ∀ k : Nat, ps[k]? = some (r, c) →
        (ps.foldl (fun (s : World × Nat) p =>
          (set_alive s.1 p.1 p.2 (int_to_bool ((rv s.2 : Int) % 2)), s.2 + 1)) (w, k0)).1.cell r c
          = ⟨int_to_bool ((rv (k0 + k) : Int) % 2), (w.cell r c).marked_for_death⟩ := by
  induction ps with
  | nil => intro w k0 _ r c; simp
  | cons p ps ih =>
    intro w k0 hnd r c
    rw [List.nodup_cons] at hnd
    obtain ⟨h1, h2⟩ := ih (set_alive w p.1 p.2 (int_to_bool ((rv k0 : Int) % 2))) (k0 + 1) hnd.2 r c
    rw [List.foldl_cons]
    constructor
    · intro hm
      rw [List.mem_cons, not_or] at hm
      have hne : ¬ (r = p.1 ∧ c = p.2) := fun h => hm.1 (Prod.ext h.1 h.2)
      rw [h1 hm.2]
      simp [set_alive, hne]
    · intro k hk
      cases k with
      | zero =>
        simp only [List.getElem?_cons_zero, Option.some.injEq] at hk
        subst hk
        rw [h1 hnd.1]
        simp [set_alive]
      | succ k =>
        simp only [List.getElem?_cons_succ] at hk
        have hm : (r, c) ∈ ps := List.getElem?_mem hk
        have hne : ¬ (r = p.1 ∧ c = p.2) := by
          intro h
          have : (r, c) = p := Prod.ext h.1 h.2
          rw [this] at hm
          exact hnd.1 hm
        have e : k0 + 1 + k = k0 + (k + 1) := by omega
        rw [h2 k hk, e]
        simp [set_alive, hne]

theorem positions_nodup : positions.Nodup :=
  List.Nodup.product (List.nodup_finRange SIZE) (List.nodup_finRange SIZE)

theorem positions_getElem : ∀ r c : Fin SIZE,
    positions[SIZE * r.val + c.val]? = some (r, c) := by decide!

theorem randomize_cell (rv : Nat → Nat) (w : World) (r c : Fin SIZE) :
    (randomize rv w).cell r c
      = ⟨int_to_bool ((rv (SIZE * r.val + c.val) : Int) % 2), (w.cell r c).marked_for_death⟩ := by
  unfold randomize randomize_from
  rw [nested_foldl (fun (s : World × Nat) (i j : Fin SIZE) =>
    (set_alive s.1 i j (int_to_bool ((rv s.2 : Int) % 2)), s.2 + 1))]
  have h := (random_sweep rv positions w 0 positions_nodup r c).2 _ (positions_getElem r c)
  rw [Nat.zero_add] at h
  exact h

theorem foldl_append_flatMap {α : Type} (f : α → List Char) (l : List α) (acc : List Char) :
    l.foldl (fun out x => out ++ f x) acc = acc ++ l.flatMap f := by
  induction l generalizing acc with
  | nil => simp
  | cons x l ih => rw [List.foldl_cons, ih, List.flatMap_cons, List.append_assoc]

theorem print_world_chars_eq (w : World) : print_world_chars w = unlines (frame_lines w) := by
  unfold print_world_chars unlines frame_lines
  have inner : ∀ (i : Fin SIZE) (out : List Char),
      (List.finRange SIZE).foldl (fun out j =>
        out ++ [if (w.cell i j).alive then '0' else '.', ' ']) out = out ++ row_line w i := by
    intro i out
    exact foldl_append_flatMap (fun j => [glyph w i j, ' ']) _ out
  simp only [inner, List.append_assoc]
  rw [foldl_append_flatMap (fun i => row_line w i ++ ['\n'])]
  simp only [List.flatMap_append, List.flatMap_map, List.nil_append, ticks_line,
    List.flatMap_cons, List.flatMap_nil, List.append_assoc, List.append_nil]
  rfl

theorem length_pairs {α : Type} (a : α → Char) (b : Char) (l : List α) :
    (l.flatMap (fun x => [a x, b])).length = 2 * l.length := by
  induction l with
  | nil => rfl
  | cons x l ih =>
    rw [List.flatMap_cons, List.length_append, ih, List.length_cons, List.length_cons,
      List.length_cons, List.length_nil]
    omega

theorem getElem_pairs {α : Type} (a : α → Char) (b : Char) (l : List α) :
    ∀ (k : Nat) (x : α), l[k]? = some x →
      (l.flatMap (fun x => [a x, b]))[2 * k]? = some (a x) ∧
      (l.flatMap (fun x => [a x, b]))[2 * k + 1]? = some b := by
  induction l with
  | nil => intro k x h; simp at h
  | cons y l ih =>
    intro k x h
    cases k with
    | zero =>
      simp only [List.getElem?_cons_zero, Option.some.injEq] at h
      subst h
      simp
    | succ k =>
      simp only [List.getElem?_cons_succ] at h
      obtain ⟨h1, h2⟩ := ih k x h
      have e1 : 2 * (k + 1) = 2 * k + 1 + 1 := by omega
      rw [List.flatMap_cons, e1]
      simp only [List.cons_append, List.nil_append, List.getElem?_cons_succ]
      exact ⟨h1, h2⟩

theorem getElem_finRange_some (n : Nat) (j : Fin n) : (List.finRange n)[j.val]? = some j := by
  rw [List.getElem?_eq_getElem (by simp)]
  simp

theorem main_start_pair (ov : Int → Int) (prng : Nat → Nat → Nat) (seed : Nat)
    (prog s : List Char) :
    main_start ov prng seed [prog, s]
      = if atoi ov s = 1 then seedSpaceshipGlider (init_cells boot)
        else if atoi ov s = 2 then seedBlinkerOscillator (init_cells boot)
        else if atoi ov s = 3 then seedLWSS (init_cells boot)
        else if atoi ov s = 4 then seedBlinkerOscillator (seedSpaceshipGlider (init_cells boot))
        else if atoi ov s = 5 then seedBlinkerOscillator (seedLWSS (init_cells boot))
        else if atoi ov s = 6 then seedLWSS (seedSpaceshipGlider (init_cells boot))
        else randomize_seeded prng seed (init_cells boot) := rfl

theorem main_start_other (ov : Int → Int) (prng : Nat → Nat → Nat) (seed : Nat)
    (prog s : List Char) (h : atoi ov s < 1 ∨ 6 < atoi ov s) :
    main_start ov prng seed [prog, s] = randomize_seeded prng seed (init_cells boot) := by
  rw [main_start_pair, if_neg (by omega), if_neg (by omega), if_neg (by omega),
    if_neg (by omega), if_neg (by omega), if_neg (by omega)]

theorem atoi_in_range (ov : Int → Int) (s : List Char)
    (h1 : INT_MIN ≤ atoi_value s) (h2 : atoi_value s ≤ INT_MAX) : atoi ov s = atoi_value s := by
  unfold atoi
  rw [if_pos ⟨h1, h2⟩]

theorem digits_value_all (ds : List Char) :
    ∀ acc : Int, ds.all Char.isDigit = true →
      digits_value ds acc = ds.foldl (fun acc c => 10 * acc + ((c.toNat : Int) - 48)) acc := by
  induction ds with
  | nil => intro acc _; rfl
  | cons c cs ih =>
    intro acc h
    rw [List.all_cons, Bool.and_eq_true] at h
    rw [digits_value, if_pos h.1, ih _ h.2, List.foldl_cons]

theorem digit_not_space (c : Char) (h : c.isDigit = true) : is_space c = false := by
  unfold Char.isDigit at h
  unfold is_space
  simp only [Bool.and_eq_true, decide_eq_true_eq, UInt32.le_def, Fin.le_def] at h
  have h1 : 48 ≤ c.toNat := h.1
  have h2 : c.toNat ≤ 57 := h.2
  simp only [Bool.or_eq_false_iff, beq_eq_false_iff_ne, Bool.and_eq_false_iff, decide_eq_false_iff_not]
  omega

theorem atoi_value_literal (s : List Char) (v : Int) (h : integer_literal s = some v) :
    atoi_value s = v := by
  cases s with
  | nil => simp [integer_literal] at h
  | cons c t =>
    unfold integer_literal at h
    simp only at h
    by_cases hm : c = '-'
    · subst hm
      rw [if_pos rfl] at h
      split at h
      · next hd =>
        simp only [Option.some.injEq] at h
        have e : List.dropWhile is_space ('-' :: t) = '-' :: t := by
          rw [List.dropWhile_cons_of_neg (by decide)]
        unfold atoi_value
        rw [e]
        simp only [if_true]
        rw [digits_value_all t 0 hd.2, ← h]
        rfl
      · simp at h
    · rw [if_neg hm] at h
      by_cases hp : c = '+'
      · subst hp
        rw [if_pos rfl] at h
        split at h
        · next hd =>
          simp only [Option.some.injEq] at h
          have e : List.dropWhile is_space ('+' :: t) = '+' :: t := by
            rw [List.dropWhile_cons_of_neg (by decide)]
          unfold atoi_value
          rw [e]
          simp only [if_neg hm, if_true]
          rw [digits_value_all t 0 hd.2, ← h]
          rfl
        · simp at h
      · rw [if_neg hp] at h
        split at h
        · next hd =>
          simp only [Option.some.injEq] at h
          have hc : c.isDigit = true := by
            rw [List.all_cons, Bool.and_eq_true] at hd
            exact hd.1
          have e : List.dropWhile is_space (c :: t) = c :: t := by
            rw [List.dropWhile_cons_of_neg (by rw [digit_not_space c hc]; simp)]
          unfold atoi_value
          rw [e]
          simp only [if_neg hm, if_neg hp]
          rw [digits_value_all (c :: t) 0 hd, ← h]
          rfl
        · simp at h

theorem atoi_value_no_number (s : List Char) (h : starts_with_number s = false) :
    atoi_value s = 0 := by
  unfold starts_with_number at h
  unfold atoi_value
  cases hd : List.dropWhile is_space s with
  | nil => rfl
  | cons c t =>
    rw [hd] at h
    simp only at h ⊢
    by_cases hm : c = '-'
    · rw [if_pos hm]
      rw [if_pos (Or.inl hm)] at h
      cases t with
      | nil => rfl
      | cons d u =>
        simp only at h
        rw [digits_value, if_neg (by rw [h]; simp)]
        rfl
    · rw [if_neg hm]
      by_cases hp : c = '+'
      · rw [if_pos hp]
        rw [if_pos (Or.inr hp)] at h
        cases t with
        | nil => rfl
        | cons d u =>
          simp only at h
          rw [digits_value, if_neg (by rw [h]; simp)]
      · rw [if_neg hp]
        rw [if_neg (by rintro (k | k); exact hm k; exact hp k)] at h
        rw [digits_value, if_neg (by rw [h]; simp)]

/-! ## Claims -/

/-- C1: after `flag_life` followed by `cycle_world`, the cell `(i, j)` is alive
exactly when `n = 3`, or the cell was alive before and `n = 2`, where `n` is
`count_neighbors(i, j)` on the grid before the generation; otherwise it is dead. -/
theorem rule_correctness (w : World) (i j : Fin SIZE) :
    (((cycle_world (flag_life w)).cell i j).alive = true ↔
      (count_neighbors w i j = 3 ∨
        ((w.cell i j).alive = true ∧ count_neighbors w i j = 2))) ∧
    (((cycle_world (flag_life w)).cell i j).alive = false ↔
      ¬ (count_neighbors w i j = 3 ∨
        ((w.cell i j).alive = true ∧ count_neighbors w i j = 2))) := by
  have h := generation_cell w i j
  unfold generation at h
  rw [h]
  simp [death_flag]

/-- C2: for every grid state and every cell `(i, j)` of the grid,
`count_neighbors(i, j)` is the number of grid positions `(r, c)` with
`|r - i| ≤ 1`, `|c - j| ≤ 1`, `(r, c) ≠ (i, j)` and `cell (r, c)` alive (the Moore
neighbourhood clipped to the grid, without wraparound), and it lies in `[0, 8]`. -/
theorem count_neighbors_moore (w : World) (i j : Fin SIZE) :
    count_neighbors w i j = moore_count w i j ∧
      0 ≤ count_neighbors w i j ∧ count_neighbors w i j ≤ 8 :=
  ⟨count_neighbors_eq_moore w i j, count_neighbors_bounds w i j⟩

/-- C3: for every grid state and every permutation of the 225 cell positions,
running the per-cell flagging step of `flag_life` in that order and then
committing with `cycle_world` gives the same next state as `flag_life` in its
row-major order followed by `cycle_world`. -/
theorem order_independence (w : World) (ps : List (Fin SIZE × Fin SIZE))
    (h : ps.Perm positions) :
    cycle_world (flag_cells ps w) = cycle_world (flag_life w) := by
  rw [flag_life_eq, flag_cells_perm w ps positions h]

theorem order_independence_witness :
    positions.reverse.Perm positions ∧
      cycle_world (flag_cells positions.reverse (seedSpaceshipGlider boot))
        = cycle_world (flag_life (seedSpaceshipGlider boot)) :=
  ⟨List.reverse_perm positions,
    order_independence (seedSpaceshipGlider boot) positions.reverse (List.reverse_perm positions)⟩

/-- C4: on a grid whose 15x15 cells are all alive, `count_neighbors(0, 0)` is 3,
and in general the count is 3 at the four corners, 5 at every non-corner cell
of an edge and 8 at every interior cell. -/
theorem dead_border (w : World) (h : ∀ r c, (w.cell r c).alive = true) :
    count_neighbors w 0 0 = 3 ∧
    ∀ i j : Fin SIZE, count_neighbors w i j
      = if (i.val = 0 ∨ i.val = 14) ∧ (j.val = 0 ∨ j.val = 14) then 3
        else if i.val = 0 ∨ i.val = 14 ∨ j.val = 0 ∨ j.val = 14 then 5 else 8 := by
  have hc : ∀ r c, (w.cell r c).alive = (all_alive.cell r c).alive := fun r c => h r c
  constructor
  · rw [count_neighbors_congr w all_alive hc]
    decide
  · intro i j
    rw [count_neighbors_congr w all_alive hc]
    exact count_all_alive i j

theorem dead_border_witness :
    (∀ r c, (all_alive.cell r c).alive = true) ∧ count_neighbors all_alive 0 0 = 3 ∧
    ∀ i j : Fin SIZE, count_neighbors all_alive i j
      = if (i.val = 0 ∨ i.val = 14) ∧ (j.val = 0 ∨ j.val = 14) then 3
        else if i.val = 0 ∨ i.val = 14 ∨ j.val = 0 ∨ j.val = 14 then 5 else 8 :=
  ⟨fun _ _ => rfl, dead_border all_alive (fun _ _ => rfl)⟩

/-- C6, as amended: `ticks` starts at 0; every call of `cycle_world` made while
`ticks < INT_MAX` increases it by exactly 1; `init_cells`, `randomize`, the seed
functions and `flag_life` leave it unchanged (`count_neighbors` and
`print_world` only read the globals); hence after `n` rounds of the main loop
from a start with `ticks = 0`, `ticks = n` for every `n ≤ INT_MAX`. -/
theorem tick_counter (n : Nat) (hn : (n : Int) ≤ INT_MAX) :
    boot.ticks = 0 ∧
    (∀ w : World, INT_MIN ≤ w.ticks → w.ticks < INT_MAX → (cycle_world w).ticks = w.ticks + 1) ∧
    (∀ w : World, (init_cells w).ticks = w.ticks ∧ (flag_life w).ticks = w.ticks ∧
      (seedSpaceshipGlider w).ticks = w.ticks ∧ (seedBlinkerOscillator w).ticks = w.ticks ∧
      (seedLWSS w).ticks = w.ticks ∧
      ∀ rand_values : Nat → Nat, (randomize rand_values w).ticks = w.ticks) ∧
    (∀ (w : World) (out : String), w.ticks = 0 → (main_loop n (w, out)).1.ticks = n) := by
  refine ⟨rfl, fun w h1 h2 => ?_, fun w => ⟨init_cells_ticks w, flag_life_ticks w, glider_ticks w,
    blinker_ticks w, lwss_ticks w, fun rv => randomize_ticks rv w⟩, fun w out h0 => ?_⟩
  · rw [cycle_world_ticks]
    exact wrapInt_id _ (by omega) (by omega)
  · rw [main_loop_ticks n (w, out) 0 (by rw [h0]; rfl), zero_add]
    exact wrapInt_id _ (by simp only [INT_MIN, INT_BITS]; norm_num; omega) hn

theorem tick_counter_witness :
    ((3 : Nat) : Int) ≤ INT_MAX ∧ boot.ticks = 0 ∧
    (∀ w : World, INT_MIN ≤ w.ticks → w.ticks < INT_MAX → (cycle_world w).ticks = w.ticks + 1) ∧
    (∀ w : World, (init_cells w).ticks = w.ticks ∧ (flag_life w).ticks = w.ticks ∧
      (seedSpaceshipGlider w).ticks = w.ticks ∧ (seedBlinkerOscillator w).ticks = w.ticks ∧
      (seedLWSS w).ticks = w.ticks ∧
      ∀ rand_values : Nat → Nat, (randomize rand_values w).ticks = w.ticks) ∧
    (∀ (w : World) (out : String), w.ticks = 0 → (main_loop 3 (w, out)).1.ticks = (3 : Nat)) :=
  ⟨by decide, tick_counter 3 (by decide)⟩

/-- The claim C6 fails for `n = 2 ^ 31`: the call of `cycle_world` made when
`ticks = INT_MAX` does not increase `ticks`, it wraps it to `INT_MIN`, so after
`2147483648` rounds of the main loop from program start `ticks` is `-2147483648`. -/
theorem tick_overflow_counterexample :
    (cycle_world { boot with ticks := 2147483647 }).ticks = -2147483648 ∧
    (main_loop 2147483648 (seedSpaceshipGlider (init_cells boot), "")).1.ticks
      = -2147483648 := by
  constructor
  · rw [cycle_world_ticks]
    decide
  · rw [main_loop_ticks 2147483648 (seedSpaceshipGlider (init_cells boot), "") 0
      (by rw [glider_ticks, init_cells_ticks]; rfl)]
    decide

/-- C7: on the grid produced by `init_cells`, each seed function leaves alive
exactly the cells of its coordinate table in the specification and every other
cell dead, and every coordinate of the three tables lies inside the 15x15 grid. -/
theorem preset_tables (w : World) :
    (∀ r c : Fin SIZE, ((seedSpaceshipGlider (init_cells w)).cell r c).alive = true ↔
        (r.val, c.val) ∈ glider_table) ∧
    (∀ r c : Fin SIZE, ((seedBlinkerOscillator (init_cells w)).cell r c).alive = true ↔
        (r.val, c.val) ∈ blinker_table) ∧
    (∀ r c : Fin SIZE, ((seedLWSS (init_cells w)).cell r c).alive = true ↔
        (r.val, c.val) ∈ lwss_table) ∧
    (∀ p ∈ glider_table ++ blinker_table ++ lwss_table, p.1 < SIZE ∧ p.2 < SIZE) := by
  refine ⟨fun r c => ?_, fun r c => ?_, fun r c => ?_, by decide⟩
  · rw [glider_alive, init_cells_cell]; simp
  · rw [blinker_alive, init_cells_cell]; simp
  · rw [lwss_alive, init_cells_cell]; simp

/-- C8: every seed function is additive on every grid state: the cells alive
afterwards are exactly those alive before united with the coordinates of the
preset, a cell that was alive stays alive under `alive++`, no cell is cleared,
and `marked_for_death` and `ticks` are unchanged; so the three combinations
that `main` applies seed the union of both presets, in either order. -/
theorem presets_additive :
    additive seedSpaceshipGlider glider_table ∧
    additive seedBlinkerOscillator blinker_table ∧
    additive seedLWSS lwss_table ∧
    (∀ (g : World) (i j : Nat) (r c : Fin SIZE),
      ((incr_alive g i j).cell r c).alive = true ↔
        ((g.cell r c).alive = true ∨ (r.val = i ∧ c.val = j))) ∧
    seeds_union seedSpaceshipGlider seedBlinkerOscillator glider_table blinker_table ∧
    seeds_union seedLWSS seedBlinkerOscillator lwss_table blinker_table ∧
    seeds_union seedSpaceshipGlider seedLWSS glider_table lwss_table := by
  refine ⟨fun g => ⟨fun r c => ?_, glider_marked g, glider_ticks g⟩,
    fun g => ⟨fun r c => ?_, blinker_marked g, blinker_ticks g⟩,
    fun g => ⟨fun r c => ?_, lwss_marked g, lwss_ticks g⟩,
    fun g i j r c => ?_,
    fun g => ⟨glider_blinker_comm g, fun r c => ?_⟩,
    fun g => ⟨lwss_blinker_comm g, fun r c => ?_⟩,
    fun g => ⟨glider_lwss_comm g, fun r c => ?_⟩⟩
  · rw [glider_alive]; simp
  · rw [blinker_alive]; simp
  · rw [lwss_alive]; simp
  · rw [incr_alive_alive]; simp
  · rw [blinker_alive, glider_alive]; simp [or_assoc]
  · rw [blinker_alive, lwss_alive]; simp [or_assoc]
  · rw [lwss_alive, glider_alive]; simp [or_assoc]

/-- C9: from `init_cells` followed by `seedSpaceshipGlider`, four generations
(`flag_life(); cycle_world();` four times) leave alive exactly the Glider
coordinates translated by `(1, 1)`, which are `(1,3), (2,1), (2,3), (3,2), (3,3)`. -/
theorem glider_translation (w : World) :
    (∀ r c : Fin SIZE,
      ((generations 4 (seedSpaceshipGlider (init_cells w))).cell r c).alive = true ↔
        (r.val, c.val) ∈ glider_table.map (fun p => (p.1 + 1, p.2 + 1))) ∧
    glider_table.map (fun p => (p.1 + 1, p.2 + 1)) = [(1, 3), (2, 1), (2, 3), (3, 2), (3, 3)] := by
  refine ⟨fun r c => ?_, by decide⟩
  have h0 : ∀ r c : Fin SIZE, ((seedSpaceshipGlider (init_cells w)).cell r c).alive
      = decide ((r.val, c.val) ∈ glider_table) := by
    intro r c
    rw [glider_alive, init_cells_cell]
    simp
  have h1 := generation_grid_of _ _ glider_phase1 _ h0
  have h2 := generation_grid_of _ _ glider_phase2 _ h1
  have h3 := generation_grid_of _ _ glider_phase3 _ h2
  have h4 := generation_grid_of _ _ glider_phase4 _ h3
  show ((generation (generation (generation (generation
    (seedSpaceshipGlider (init_cells w)))))).cell r c).alive = true ↔ _
  rw [h4 r c]
  simp

/-- C10: for every position `(r, c)` with `0 ≤ r, c ≤ 13`, a grid whose only
alive cells are the 2x2 block `(r,c), (r,c+1), (r+1,c), (r+1,c+1)`, blocks that
touch the border included, has exactly the same alive cells after one generation
(`flag_life(); cycle_world();`). -/
theorem block_still_life (r c : Nat) (hr : r ≤ 13) (hc : c ≤ 13) (w : World)
    (hw : ∀ i j : Fin SIZE, (w.cell i j).alive = true ↔
      ((i.val = r ∨ i.val = r + 1) ∧ (j.val = c ∨ j.val = c + 1))) :
    ∀ i j : Fin SIZE, ((cycle_world (flag_life w)).cell i j).alive = (w.cell i j).alive := by
  intro i j
  have hg := generation_cell w i j
  unfold generation at hg
  rw [hg]
  have ha := block_alive r c w hw i j
  have hb := block_rule r c i.val j.val
  simp only [death_flag, count_neighbors_sum, neighbor_test_block r c hr hc w hw, ha]
  unfold in_block
  rw [Bool.eq_iff_iff]
  simpa using hb

theorem block_still_life_witness :
    (0 ≤ 13) ∧ (13 ≤ 13) ∧
    (∀ i j : Fin SIZE, ((grid_of [(0, 13), (0, 14), (1, 13), (1, 14)]).cell i j).alive = true ↔
      ((i.val = 0 ∨ i.val = 0 + 1) ∧ (j.val = 13 ∨ j.val = 13 + 1))) ∧
    ∀ i j : Fin SIZE,
      ((cycle_world (flag_life (grid_of [(0, 13), (0, 14), (1, 13), (1, 14)]))).cell i j).alive
        = ((grid_of [(0, 13), (0, 14), (1, 13), (1, 14)]).cell i j).alive :=
  ⟨by decide, by decide, by decide,
    block_still_life 0 13 (by decide) (by decide) (grid_of [(0, 13), (0, 14), (1, 13), (1, 14)])
      (by decide)⟩

/-- C11, as amended: with exactly one argument the arguments `1`, ..., `6` seed
Glider, Blinker/Oscillator, LWSS, Glider+Blinker, LWSS+Blinker and Glider+LWSS
on the all-dead grid, and so does every argument for which `atoi` returns
that number; with another number of arguments, or when `atoi` returns any
other value, the program runs `randomize` on the all-dead grid and seeds no
preset.  In particular this is so for every argument that is a decimal integer
in the range of `int` other than `1`, ..., `6`, and for every argument that
does not start (after white space and a sign) with a digit. -/
theorem seeding_mode (ov : Int → Int) (prng : Nat → Nat → Nat) (seed : Nat)
    (prog s : List Char) (argv : List (List Char)) (hargc : argv.length ≠ 2) :
    (main_start ov prng seed [prog, "1".toList] = seedSpaceshipGlider (init_cells boot) ∧
      main_start ov prng seed [prog, "2".toList] = seedBlinkerOscillator (init_cells boot) ∧
      main_start ov prng seed [prog, "3".toList] = seedLWSS (init_cells boot) ∧
      main_start ov prng seed [prog, "4".toList]
        = seedBlinkerOscillator (seedSpaceshipGlider (init_cells boot)) ∧
      main_start ov prng seed [prog, "5".toList]
        = seedBlinkerOscillator (seedLWSS (init_cells boot)) ∧
      main_start ov prng seed [prog, "6".toList]
        = seedLWSS (seedSpaceshipGlider (init_cells boot))) ∧
    ((atoi ov s = 1 → main_start ov prng seed [prog, s] = seedSpaceshipGlider (init_cells boot)) ∧
      (atoi ov s = 2 →
        main_start ov prng seed [prog, s] = seedBlinkerOscillator (init_cells boot)) ∧
      (atoi ov s = 3 → main_start ov prng seed [prog, s] = seedLWSS (init_cells boot)) ∧
      (atoi ov s = 4 → main_start ov prng seed [prog, s]
        = seedBlinkerOscillator (seedSpaceshipGlider (init_cells boot))) ∧
      (atoi ov s = 5 → main_start ov prng seed [prog, s]
        = seedBlinkerOscillator (seedLWSS (init_cells boot))) ∧
      (atoi ov s = 6 → main_start ov prng seed [prog, s]
        = seedLWSS (seedSpaceshipGlider (init_cells boot)))) ∧
    main_start ov prng seed argv = randomize_seeded prng seed (init_cells boot) ∧
    (atoi ov s < 1 ∨ 6 < atoi ov s →
      main_start ov prng seed [prog, s] = randomize_seeded prng seed (init_cells boot)) ∧
    (∀ v : Int, integer_literal s = some v → INT_MIN ≤ v → v ≤ INT_MAX → v < 1 ∨ 6 < v →
      main_start ov prng seed [prog, s] = randomize_seeded prng seed (init_cells boot)) ∧
    (starts_with_number s = false →
      main_start ov prng seed [prog, s] = randomize_seeded prng seed (init_cells boot)) := by
  refine ⟨⟨rfl, rfl, rfl, rfl, rfl, rfl⟩, ⟨?_, ?_, ?_, ?_, ?_, ?_⟩, ?_, main_start_other ov prng seed prog s,
    ?_, ?_⟩
  · intro h; rw [main_start_pair, h]; rfl
  · intro h; rw [main_start_pair, h]; rfl
  · intro h; rw [main_start_pair, h]; rfl
  · intro h; rw [main_start_pair, h]; rfl
  · intro h; rw [main_start_pair, h]; rfl
  · intro h; rw [main_start_pair, h]; rfl
  · unfold main_start
    simp only [if_neg hargc]
  · intro v hv h1 h2 h3
    have e := atoi_value_literal s v hv
    apply main_start_other
    rw [atoi_in_range ov s (by rw [e]; exact h1) (by rw [e]; exact h2), e]
    exact h3
  · intro h
    have e := atoi_value_no_number s h
    apply main_start_other
    rw [atoi_in_range ov s (by rw [e]; decide) (by rw [e]; decide), e]
    decide

theorem seeding_mode_witness :
    ["life".toList].length ≠ 2 ∧
    main_start wrapInt (fun a k => a + k) 0 ["life".toList]
      = randomize_seeded (fun a k => a + k) 0 (init_cells boot) ∧
    integer_literal "-7".toList = some (-7) ∧
    main_start wrapInt (fun a k => a + k) 0 ["life".toList, "-7".toList]
      = randomize_seeded (fun a k => a + k) 0 (init_cells boot) ∧
    starts_with_number "glider".toList = false ∧
    main_start wrapInt (fun a k => a + k) 0 ["life".toList, "glider".toList]
      = randomize_seeded (fun a k => a + k) 0 (init_cells boot) :=
  ⟨by decide,
    (seeding_mode wrapInt (fun a k => a + k) 0 "life".toList "-7".toList ["life".toList]
      (by decide)).2.2.1,
    by decide,
    (seeding_mode wrapInt (fun a k => a + k) 0 "life".toList "-7".toList ["life".toList]
      (by decide)).2.2.2.2.1 (-7) (by decide) (by decide) (by decide) (by decide),
    by decide,
    (seeding_mode wrapInt (fun a k => a + k) 0 "life".toList "glider".toList ["life".toList]
      (by decide)).2.2.2.2.2 (by decide)⟩

/-- The claim C11 fails for the argument `1abc`: it is not an integer, yet
`atoi` reads the leading `1`, and the program seeds the Glider preset instead
of falling back to `randomize`. -/
theorem seeding_mode_counterexample :
    integer_literal "1abc".toList = none ∧
    main_start wrapInt (fun _ _ => 0) 0 ["life".toList, "1abc".toList]
      = seedSpaceshipGlider (init_cells boot) ∧
    main_start wrapInt (fun _ _ => 0) 0 ["life".toList, "1abc".toList]
      ≠ randomize_seeded (fun _ _ => 0) 0 (init_cells boot) := by
  have e : main_start wrapInt (fun _ _ => 0) 0 ["life".toList, "1abc".toList]
      = seedSpaceshipGlider (init_cells boot) := rfl
  refine ⟨by decide, e, fun h => ?_⟩
  rw [e] at h
  have hl : ((seedSpaceshipGlider (init_cells boot)).cell 0 2).alive = true := by
    rw [glider_alive, init_cells_cell]
    decide
  have hr : ((randomize_seeded (fun _ _ => 0) 0 (init_cells boot)).cell 0 2).alive = false := by
    unfold randomize_seeded
    rw [randomize_cell]
    decide
  rw [h, hr] at hl
  exact Bool.noConfusion hl

/-- C12, as amended: from `init_cells` followed by `seedBlinkerOscillator` the
grid is periodic from generation 26 on, with period 3: for every `n ≥ 26`
the alive set after `n + 3` generations is exactly the alive set after `n`
generations; the seeded alive set itself is not reproduced by any number
`p ≥ 1` of generations. -/
theorem blinker_eventually_periodic (w : World) (m p : Nat) :
    (∀ r c : Fin SIZE,
      ((generations (26 + m + 3) (seedBlinkerOscillator (init_cells w))).cell r c).alive
        = ((generations (26 + m) (seedBlinkerOscillator (init_cells w))).cell r c).alive) ∧
    (∃ r c : Fin SIZE,
      ((generations (p + 1) (seedBlinkerOscillator (init_cells w))).cell r c).alive
        ≠ ((seedBlinkerOscillator (init_cells w)).cell r c).alive) :=
  ⟨blinker_period w m, blinker_seed_never_recurs w p⟩

/-- The claim C12 fails: no number `p ≥ 1` of generations brings the grid
seeded by `init_cells` and `seedBlinkerOscillator` back to the seeded alive set. -/
theorem blinker_period_counterexample :
    ¬ ∃ p : Nat, 1 ≤ p ∧ ∀ r c : Fin SIZE,
      ((generations p (seedBlinkerOscillator (init_cells boot))).cell r c).alive
        = ((seedBlinkerOscillator (init_cells boot)).cell r c).alive := by
  rintro ⟨p, hp, h⟩
  obtain ⟨r, c, hd⟩ := blinker_seed_never_recurs boot (p - 1)
  have e : p - 1 + 1 = p := by omega
  rw [e] at hd
  exact hd (h r c)

/-- C13: the grid that `randomize` produces is a function of the seed alone:
with the sequence `prng seed` of the results of `rand()`, the cell `(r, c)`
gets the value number `15 r + c` of the sequence, modulo 2 (row-major order),
whatever the grid held before; so two runs with the same seed give the same
alive cells, and from `init_cells` the same cells.  The fields
`marked_for_death` and `ticks` are not written. -/
theorem randomize_deterministic (prng : Nat → Nat → Nat) (seed : Nat) (w w2 : World) :
    (∀ r c : Fin SIZE, ((randomize_seeded prng seed w).cell r c).alive
      = int_to_bool ((prng seed (SIZE * r.val + c.val) : Int) % 2)) ∧
    (∀ r c : Fin SIZE, ((randomize_seeded prng seed w).cell r c).alive
      = ((randomize_seeded prng seed w2).cell r c).alive) ∧
    (∀ r c : Fin SIZE, ((randomize_seeded prng seed w).cell r c).marked_for_death
      = (w.cell r c).marked_for_death) ∧
    (randomize_seeded prng seed w).ticks = w.ticks ∧
    (∀ r c : Fin SIZE, (randomize_seeded prng seed (init_cells w)).cell r c
      = (randomize_seeded prng seed (init_cells w2)).cell r c) := by
  unfold randomize_seeded
  refine ⟨fun r c => ?_, fun r c => ?_, fun r c => ?_, randomize_ticks _ w, fun r c => ?_⟩
  · rw [randomize_cell]
  · rw [randomize_cell, randomize_cell]
  · rw [randomize_cell]
  · rw [randomize_cell, randomize_cell, init_cells_cell, init_cells_cell]

/-- C14: for every grid state, `flag_life` changes no cell's `alive` field and
not `ticks` (it writes only `marked_for_death`), and `cycle_world` changes no
cell's `marked_for_death` field (it writes only `alive` and `ticks`); the same
holds for each single step of the two sweeps. -/
theorem phase_separation (w : World) :
    (∀ r c : Fin SIZE, ((flag_life w).cell r c).alive = (w.cell r c).alive) ∧
    (flag_life w).ticks = w.ticks ∧
    (∀ r c : Fin SIZE,
      ((cycle_world w).cell r c).marked_for_death = (w.cell r c).marked_for_death) ∧
    (∀ i j r c : Fin SIZE, ((flag_cell w i j).cell r c).alive = (w.cell r c).alive) ∧
    (∀ i j : Fin SIZE, (flag_cell w i j).ticks = w.ticks) ∧
    (∀ i j r c : Fin SIZE,
      ((commit_cell w i j).cell r c).marked_for_death = (w.cell r c).marked_for_death) := by
  refine ⟨fun r c => ?_, flag_life_ticks w, fun r c => ?_, flag_cell_alive w,
    fun i j => rfl, commit_cell_marked w⟩
  · rw [flag_life_cell]
  · rw [cycle_world_cell]

/-- C15: one generation (`flag_life(); cycle_world();`) commutes with the
symmetries of the square grid: advancing the transpose of a grid state gives
the transpose of the advanced state, and likewise for the row reflection
`(i, j) -> (14 - i, j)` and the column reflection `(i, j) -> (i, 14 - j)`. -/
theorem symmetry_equivariance (g : World) :
    cycle_world (flag_life (transpose g)) = transpose (cycle_world (flag_life g)) ∧
    cycle_world (flag_life (flip_rows g)) = flip_rows (cycle_world (flag_life g)) ∧
    cycle_world (flag_life (flip_cols g)) = flip_cols (cycle_world (flag_life g)) := by
  refine ⟨generation_transpose g, generation_flip_rows g, ?_⟩
  show generation (flip_cols g) = flip_cols (generation g)
  rw [flip_cols_eq, flip_cols_eq, generation_transpose, generation_flip_rows,
    generation_transpose]

/-- C16: for every cell `(i, j)` of the grid and every two grid states that
agree on the `alive` field of `(i, j)` and of all cells of the grid at
Chebyshev distance 1 from it, the `alive` field of `(i, j)` after one
generation is the same in both; nothing is assumed about cells farther away
or about `marked_for_death` and `ticks`. -/
theorem locality (w w2 : World) (i j : Fin SIZE)
    (h : ∀ r c : Fin SIZE, r.val ≤ i.val + 1 → i.val ≤ r.val + 1 → c.val ≤ j.val + 1 →
      j.val ≤ c.val + 1 → (w.cell r c).alive = (w2.cell r c).alive) :
    ((cycle_world (flag_life w)).cell i j).alive
      = ((cycle_world (flag_life w2)).cell i j).alive := by
  have h1 := generation_cell w i j
  have h2 := generation_cell w2 i j
  unfold generation at h1 h2
  rw [h1, h2]
  simp only [death_flag]
  rw [count_neighbors_local w w2 i j h, h i j (by omega) (by omega) (by omega) (by omega)]

theorem locality_witness :
    (∀ r c : Fin SIZE, r.val ≤ (1 : Fin SIZE).val + 1 → (1 : Fin SIZE).val ≤ r.val + 1 →
      c.val ≤ (1 : Fin SIZE).val + 1 → (1 : Fin SIZE).val ≤ c.val + 1 →
      ((seedSpaceshipGlider boot).cell r c).alive
        = ((flag_life (seedLWSS (seedSpaceshipGlider boot))).cell r c).alive) ∧
    ((cycle_world (flag_life (seedSpaceshipGlider boot))).cell 1 1).alive
      = ((cycle_world (flag_life
          (flag_life (seedLWSS (seedSpaceshipGlider boot))))).cell 1 1).alive := by
  have hyp : ∀ r c : Fin SIZE, r.val ≤ (1 : Fin SIZE).val + 1 → (1 : Fin SIZE).val ≤ r.val + 1 →
      c.val ≤ (1 : Fin SIZE).val + 1 → (1 : Fin SIZE).val ≤ c.val + 1 →
      ((seedSpaceshipGlider boot).cell r c).alive
        = ((flag_life (seedLWSS (seedSpaceshipGlider boot))).cell r c).alive := by
    intro r c _ _ hc _
    have hc2 : c.val ≤ 2 := hc
    rw [flag_life_cell, lwss_alive]
    have hn : (r.val, c.val) ∉ lwss_table := by
      simp only [lwss_table, List.mem_cons, Prod.mk.injEq, List.mem_singleton, List.mem_nil_iff,
        or_false]
      omega
    simp [hn]
  exact ⟨hyp, locality _ _ 1 1 hyp⟩

/-- C17: from `init_cells` followed by `seedLWSS`, four generations leave
alive exactly the LWSS coordinates moved two columns to the left, each seeded
`(r, c)` becoming `(r, c - 2)`, and no other cell; every seeded column is at
least 2, and the seeded cells of column 14 touch the right border. -/
theorem lwss_translation (w : World) :
    (∀ r c : Fin SIZE,
      ((generations 4 (seedLWSS (init_cells w))).cell r c).alive = true ↔
        (r.val, c.val) ∈ lwss_table.map (fun p => (p.1, p.2 - 2))) ∧
    lwss_table.map (fun p => (p.1, p.2 - 2))
      = [(1, 9), (2, 8), (3, 8), (4, 8), (4, 9), (4, 10), (4, 11), (1, 12), (3, 12)] ∧
    (∀ p ∈ lwss_table, 2 ≤ p.2) ∧ (1, 14) ∈ lwss_table := by
  refine ⟨fun r c => ?_, by decide, by decide, by decide⟩
  have h0 : represents (seedLWSS (init_cells w)) (lwss_orbit.getD 0 []) := by
    intro r c
    rw [lwss_alive, init_cells_cell, ← lwss_seed_rows r c]
    simp
  have h4 := orbit_represents lwss_orbit _ 4 lwss_orbit_check (by decide) h0
  rw [h4 r c, lwss_final_rows r c]
  simp

/-- C18: for every grid state with at most 2 alive cells, every cell is dead
after one generation (`flag_life(); cycle_world();`); the grid produced by
`init_cells` has no alive cell, so this holds for it, and its `alive` fields
are the same after one generation. -/
theorem sparse_extinction (w : World) (h : alive_count w ≤ 2) :
    (∀ r c : Fin SIZE, ((cycle_world (flag_life w)).cell r c).alive = false) ∧
    (∀ w0 : World, alive_count (init_cells w0) = 0 ∧
      ∀ r c : Fin SIZE, ((cycle_world (flag_life (init_cells w0))).cell r c).alive
        = ((init_cells w0).cell r c).alive) := by
  have key : ∀ w : World, alive_count w ≤ 2 →
      ∀ r c : Fin SIZE, ((cycle_world (flag_life w)).cell r c).alive = false := by
    intro w h r c
    have hg := generation_cell w r c
    unfold generation at hg
    rw [hg]
    have hle := moore_count_le w r.val c.val
    have hm := count_neighbors_eq_moore w r.val c.val
    simp only [death_flag, hm]
    cases ha : (w.cell r c).alive
    · have h3 : ¬ ((moore_count w r.val c.val : Int) = 3) := by omega
      simp [h3]
    · have hlt := moore_count_lt w r c ha
      have h3 : ¬ ((moore_count w r.val c.val : Int) = 3) := by omega
      have h2 : ¬ ((moore_count w r.val c.val : Int) = 2) := by omega
      simp [h3, h2]
  refine ⟨key w h, fun w0 => ⟨alive_count_init w0, fun r c => ?_⟩⟩
  rw [key (init_cells w0) (by rw [alive_count_init]; omega), init_cells_cell]

theorem sparse_extinction_witness :
    alive_count (grid_of [(3, 3), (3, 4)]) ≤ 2 ∧
    (∀ r c : Fin SIZE,
      ((cycle_world (flag_life (grid_of [(3, 3), (3, 4)]))).cell r c).alive = false) ∧
    (∀ w0 : World, alive_count (init_cells w0) = 0 ∧
      ∀ r c : Fin SIZE, ((cycle_world (flag_life (init_cells w0))).cell r c).alive
        = ((init_cells w0).cell r c).alive) := by
  have hc : alive_count (grid_of [(3, 3), (3, 4)]) ≤ 2 := by decide
  exact ⟨hc, sparse_extinction (grid_of [(3, 3), (3, 4)]) hc⟩

/-- C19: for every grid state and tick value, `print_world` writes, in
row-major order, 15 lines of exactly 30 characters, in which the cell `(i, j)`
gives the characters number `2 j` and `2 j + 1`, `'0'` and a space if it is
alive, `'.'` and a space if it is dead; then an empty line, then the line
`Ticks = t` (and the empty line that the final `"\n\n"` leaves).  It is a
function of the globals only: a round of the main loop computes the next state
from the very state that was printed. -/
theorem frame_format (w : World) :
    print_world_chars w = unlines (frame_lines w) ∧
    print_world w = String.mk (unlines (frame_lines w)) ∧
    (frame_lines w).length = 18 ∧
    (∀ i : Fin SIZE, (frame_lines w)[i.val]? = some (row_line w i) ∧
      (row_line w i).length = 30 ∧
      ∀ j : Fin SIZE,
        (row_line w i)[2 * j.val]? = some (if (w.cell i j).alive then '0' else '.') ∧
        (row_line w i)[2 * j.val + 1]? = some ' ') ∧
    (frame_lines w)[15]? = some [] ∧
    (frame_lines w)[16]? = some ("Ticks = ".toList ++ (toString w.ticks).toList) ∧
    (∀ out : String, main_loop 1 (w, out) = (cycle_world (flag_life w), out ++ print_world w)) := by
  refine ⟨print_world_chars_eq w, ?_, ?_, fun i => ⟨?_, ?_, fun j => ?_⟩, ?_, ?_, fun out => rfl⟩
  · unfold print_world
    rw [print_world_chars_eq]
  · simp [frame_lines]
  · have hi : i.val < ((List.finRange SIZE).map (row_line w)).length := by simp
    unfold frame_lines
    rw [List.getElem?_append_left hi, List.getElem?_map, getElem_finRange_some]
    rfl
  · unfold row_line
    rw [length_pairs, List.length_finRange]
    decide
  · exact getElem_pairs (fun j => glyph w i j) ' ' _ j.val j (getElem_finRange_some SIZE j)
  · have h15 : ((List.finRange SIZE).map (row_line w)).length = 15 := by
      rw [List.length_map, List.length_finRange]
    unfold frame_lines
    rw [List.getElem?_append_right (Nat.le_of_eq h15), h15]
    rfl
  · have h15 : ((List.finRange SIZE).map (row_line w)).length = 15 := by
      rw [List.length_map, List.length_finRange]
    unfold frame_lines
    rw [List.getElem?_append_right (by rw [h15]; decide), h15]
    rfl

end Life
